import Mathlib

/-!
# Solar system renderer (src/Main.cpp): command traces and the GL state they act on

The program is written against the fixed-function OpenGL pipeline.  Every
function of Main.cpp is embedded as the list of GL commands it issues, in
program order, and the commands are given their meaning on an explicit GL
state (matrix stacks, capabilities, material and light registers).

Scalars: the program computes in `float` and `double`.  The embedding is
generic in the scalar field `α` and in the math library (`CLib`), so every
definition is a plain computable function; the theorems are stated at
`α = ℝ` with the real cosine, sine and square root (exact arithmetic in
place of floating point).  The angle and the radius of lines 46-47 are in
addition embedded in binary32, with every operation rounded.
-/

namespace SolarSystem

/-! ## The C library: <cmath>, <cstdlib> -/

/-- What the program takes from the C library: `cos`, `sin`, `sqrt`, the
circle constant used for degree/radian conversion, and `RAND_MAX`, the
largest value `rand()` returns. -/
structure CLib (α : Type) where
  cos : α → α
  sin : α → α
  sqrt : α → α
  pi : α
  RAND_MAX : Nat

/-- The exact library over the reals. -/
noncomputable def realLib (RAND_MAX : Nat) : CLib ℝ :=
  { cos := Real.cos, sin := Real.sin, sqrt := Real.sqrt, pi := Real.pi, RAND_MAX := RAND_MAX }

section Program

variable {α : Type} [Field α] [DecidableEq α]

/-! ## Constants (Main.cpp lines 9-15) -/

/-- The constant `const float PI = 3.14159265358979323846;` The literal is the circle
constant written to 21 digits; over exact arithmetic it denotes the
library's π. -/
def PI (E : CLib α) : α := E.pi

/-- The array `ORBITAL_SPEEDS[]`, radians per time unit, Mercury to Neptune. -/
def ORBITAL_SPEEDS : List α := [0.1, 0.08, 0.06, 0.05, 0.04, 0.03, 0.02, 0.01]

/-- The array `ORBITAL_RADII[]`. -/
def ORBITAL_RADII : List α := [2.0, 4.0, 6.0, 8.0, 12.0, 16.0, 20.0, 24.0]

/-- The array `ROTATION_SPEEDS[]`, degrees per time unit. -/
def ROTATION_SPEEDS : List α := [1.0, 0.8, 1.0, 1.5, 0.5, 0.4, 0.3, 0.2]

/-- The constant `MOON_ORBITAL_RADIUS`. -/
def MOON_ORBITAL_RADIUS : α := 1.0

/-- The constant `MOON_ORBITAL_SPEED`. -/
def MOON_ORBITAL_SPEED : α := 0.2

/-! ## GL commands -/

/-- Homogeneous coordinates and RGBA quadruples. -/
abbrev Vec4 (α : Type) := Fin 4 → α

/-- A 4x4 matrix, row by row. -/
abbrev Mat4 (α : Type) := Matrix (Fin 4) (Fin 4) α

inductive MatrixMode where
  | modelview | projection | texture
  deriving DecidableEq, Repr

inductive Cap where
  | lighting | light0 | depthTest | blend | texture2D
  deriving DecidableEq, Repr

inductive Prim where
  | lineLoop | triangleStrip | quads
  deriving DecidableEq, Repr

inductive MaterialParam where
  | ambient | diffuse | specular | emission
  deriving DecidableEq, Repr

inductive LightParam where
  | ambient | diffuse | specular | position
  deriving DecidableEq, Repr

inductive GLError where
  | stackOverflow | stackUnderflow | invalidValue
  deriving DecidableEq, Repr

/-- The source line of a `gluSphere` call: which body the sphere is.  A
label carried by the command; it has no effect on the GL state. -/
inductive Body where
  | sun
  | planet (i : Nat)
  | moon
  | asteroid (k : Nat)
  deriving DecidableEq, Repr

/-- The GL and GLU calls the program makes.  Material calls are always on
`GL_FRONT`, light calls on `GL_LIGHT0`, texture binds on `GL_TEXTURE_2D`. -/
inductive Cmd (α : Type) where
  | matrixMode (m : MatrixMode)
  | pushMatrix
  | popMatrix
  | loadIdentity
  | translatef (x y z : α)
  | rotatef (angle x y z : α)
  | ortho (l r b t n f : α)
  | perspective (fovy aspect zNear zFar : α)
  | lookAt (eyeX eyeY eyeZ centerX centerY centerZ upX upY upZ : α)
  | enable (c : Cap)
  | disable (c : Cap)
  | bindTexture (tex : Nat)
  | color4f (r g b a : α)
  | materialfv (p : MaterialParam) (v : Vec4 α)
  | materialShininess (x : α)
  | lightfv (p : LightParam) (v : Vec4 α)
  | clear
  | glBegin (p : Prim)
  | glEnd
  | texCoord2f (s t : α)
  | vertex3f (x y z : α)
  | vertex2f (x y : α)
  | sphere (site : Body) (radius : α) (nSlices nStacks : Nat)

/-! ## The functions of Main.cpp as command traces -/

/-- Function `drawOrbit(radius)`, lines 17-26. -/
def drawOrbit (E : CLib α) (radius : α) : List (Cmd α) :=
  [Cmd.glBegin Prim.lineLoop]
    ++ (List.range 360).map (fun (i : Nat) =>
          let theta := (i : α) * PI E / 180
          let x := radius * E.cos theta
          let z := radius * E.sin theta
          Cmd.vertex3f x 0 z)
    ++ [Cmd.glEnd]

/-- Function `setMaterialColor(r, g, b, shininess)`, lines 28-37. -/
def setMaterialColor (r g b shininess : α) : List (Cmd α) :=
  [ Cmd.materialfv MaterialParam.ambient ![r * 0.2, g * 0.2, b * 0.2, 1],
    Cmd.materialfv MaterialParam.diffuse ![r, g, b, 1],
    Cmd.materialfv MaterialParam.specular ![1, 1, 1, 1],
    Cmd.materialShininess shininess ]

/-- Function `setEmissiveColor(r, g, b)`, lines 39-42. -/
def setEmissiveColor (r g b : α) : List (Cmd α) :=
  [ Cmd.materialfv MaterialParam.emission ![r, g, b, 1] ]

/-- The angle `static_cast<float>(rand()) / RAND_MAX * 2.0f * PI` of line 46,
for the value `r` returned by `rand()`, over exact arithmetic; its value in
`float` is `asteroidAngleF32`. -/
def asteroidAngle (E : CLib α) (r : Nat) : α :=
  (r : α) / (E.RAND_MAX : α) * 2 * PI E

/-- The radius of line 47, for the value `r` returned by `rand()`, over exact
arithmetic; its value in `float` is `asteroidRadiusF32`. -/
def asteroidRadius (E : CLib α) (innerRadius outerRadius : α) (r : Nat) : α :=
  innerRadius + (r : α) / (E.RAND_MAX : α) * (outerRadius - innerRadius)

/-- One iteration of the loop of `drawAsteroidBelt` (lines 46-63); `r1` and
`r2` are the two values `rand()` returns, in call order. -/
def drawAsteroid (E : CLib α) (innerRadius outerRadius : α) (asteroidTexture : Nat)
    (i r1 r2 : Nat) : List (Cmd α) :=
  let angle := asteroidAngle E r1
  let radius := asteroidRadius E innerRadius outerRadius r2
  let x := radius * E.cos angle
  let z := radius * E.sin angle
  [Cmd.pushMatrix, Cmd.translatef x 0 z]
    ++ setMaterialColor 0.5 0.5 0.5 10
    ++ [ Cmd.enable Cap.texture2D, Cmd.bindTexture asteroidTexture,
         Cmd.sphere (Body.asteroid i) 0.1 16 16,
         Cmd.disable Cap.texture2D,
         Cmd.popMatrix ]

/-- Function `drawAsteroidBelt(quad, innerRadius, outerRadius, numAsteroids, asteroidTexture)`,
lines 44-65.  `rnd k` is the value of the k-th call of `rand()` made during
this call; iteration `i` makes calls `2 i` and `2 i + 1`.  The loop
`for (int i = 0; i < numAsteroids; ++i)` runs `numAsteroids` times, not at
all when `numAsteroids` is negative. -/
def drawAsteroidBelt (E : CLib α) (innerRadius outerRadius : α) (numAsteroids : Int)
    (asteroidTexture : Nat) (rnd : Nat → Nat) : List (Cmd α) :=
  (List.range numAsteroids.toNat).flatMap (fun (i : Nat) =>
    drawAsteroid E innerRadius outerRadius asteroidTexture i (rnd (2 * i)) (rnd (2 * i + 1)))

/-- Function `drawTexturedRing(innerRadius, outerRadius, segments, texture)`, lines 67-86.
The loop `for (int i = 0; i <= segments; ++i)` runs `segments + 1` times. -/
def drawTexturedRing (E : CLib α) (innerRadius outerRadius : α) (segments : Int)
    (texture : Nat) : List (Cmd α) :=
  [Cmd.enable Cap.texture2D, Cmd.bindTexture texture, Cmd.glBegin Prim.triangleStrip]
    ++ (List.range (segments + 1).toNat).flatMap (fun (i : Nat) =>
          let theta := 2 * PI E * (i : α) / (segments : α)
          let x := E.cos theta
          let z := E.sin theta
          [ Cmd.texCoord2f 0 ((i : α) / (segments : α)),
            Cmd.vertex3f (innerRadius * x) 0 (innerRadius * z),
            Cmd.texCoord2f 1 ((i : α) / (segments : α)),
            Cmd.vertex3f (outerRadius * x) 0 (outerRadius * z) ])
    ++ [Cmd.glEnd, Cmd.disable Cap.texture2D]

/-- Function `drawBackground(texture)`, lines 88-120. -/
def drawBackground (texture : Nat) : List (Cmd α) :=
  [ Cmd.disable Cap.depthTest,
    Cmd.matrixMode MatrixMode.projection,
    Cmd.pushMatrix,
    Cmd.loadIdentity,
    Cmd.ortho 0 800 0 600 (-1) 1,
    Cmd.matrixMode MatrixMode.modelview,
    Cmd.pushMatrix,
    Cmd.loadIdentity,
    Cmd.enable Cap.texture2D,
    Cmd.bindTexture texture,
    Cmd.color4f 1 1 1 0.5,
    Cmd.glBegin Prim.quads,
    Cmd.texCoord2f 0 0, Cmd.vertex2f 0 0,
    Cmd.texCoord2f 1 0, Cmd.vertex2f 800 0,
    Cmd.texCoord2f 1 1, Cmd.vertex2f 800 600,
    Cmd.texCoord2f 0 1, Cmd.vertex2f 0 600,
    Cmd.glEnd,
    Cmd.disable Cap.texture2D,
    Cmd.popMatrix,
    Cmd.matrixMode MatrixMode.projection,
    Cmd.popMatrix,
    Cmd.matrixMode MatrixMode.modelview,
    Cmd.enable Cap.depthTest ]

/-- The texture handles loaded at start-up (lines 160-171). -/
structure Textures where
  sunTexture : Nat
  mercuryTexture : Nat
  venusTexture : Nat
  earthTexture : Nat
  marsTexture : Nat
  asteroidTexture : Nat
  jupiterTexture : Nat
  saturnTexture : Nat
  saturnRingTexture : Nat
  uranusTexture : Nat
  neptuneTexture : Nat
  backgroundTexture : Nat

/-- The sun's draw sequence, lines 211-227. -/
def drawSun (tex : Textures) : List (Cmd α) :=
  [Cmd.pushMatrix, Cmd.translatef 0 0 0, Cmd.rotatef 90 1 0 0]
    ++ setMaterialColor 1 1 0 100
    ++ setEmissiveColor 0.5 0.5 0
    ++ [ Cmd.enable Cap.texture2D, Cmd.bindTexture tex.sunTexture,
         Cmd.sphere Body.sun 1.0 32 32,
         Cmd.disable Cap.texture2D ]
    ++ setEmissiveColor 0 0 0
    ++ [Cmd.popMatrix]

/-- The `switch (i)` of lines 255-264. -/
def bindPlanetTexture (tex : Textures) (i : Nat) : List (Cmd α) :=
  match i with
  | 0 => [Cmd.bindTexture tex.mercuryTexture]
  | 1 => [Cmd.bindTexture tex.venusTexture]
  | 2 => [Cmd.bindTexture tex.earthTexture]
  | 3 => [Cmd.bindTexture tex.marsTexture]
  | 4 => [Cmd.bindTexture tex.jupiterTexture]
  | 5 => [Cmd.bindTexture tex.saturnTexture]
  | 6 => [Cmd.bindTexture tex.uranusTexture]
  | 7 => [Cmd.bindTexture tex.neptuneTexture]
  | _ => []

/-- The orbit position `(x, 0, z)` of lines 241-243 and 246, for planet `i`
at elapsed time `elapsedTime`. -/
def orbitPosition (E : CLib α) (i : Nat) (elapsedTime : α) : α × α × α :=
  let angle := elapsedTime * ORBITAL_SPEEDS.getD i 0
  let x := ORBITAL_RADII.getD i 0 * E.cos angle
  let z := ORBITAL_RADII.getD i 0 * E.sin angle
  (x, 0, z)

/-- The moon's draw sequence, lines 279-288. -/
def drawMoon (E : CLib α) (elapsedTime : α) : List (Cmd α) :=
  let moonAngle := elapsedTime * MOON_ORBITAL_SPEED
  let moonX := MOON_ORBITAL_RADIUS * E.cos moonAngle
  let moonZ := MOON_ORBITAL_RADIUS * E.sin moonAngle
  [Cmd.pushMatrix, Cmd.translatef moonX 0 moonZ, Cmd.rotatef 90 1 0 0]
    ++ setMaterialColor 0.8 0.8 0.8 10
    ++ [Cmd.sphere Body.moon 0.25 16 16, Cmd.popMatrix]

/-- The planet's transform scope, lines 245-291, entered by translating to
`pos`; the loop passes the orbit position of lines 241-243. -/
def drawPlanetAt (E : CLib α) (tex : Textures) (elapsedTime : α) (i : Nat)
    (pos : α × α × α) : List (Cmd α) :=
  let rotationAngle := elapsedTime * ROTATION_SPEEDS.getD i 0
  [ Cmd.pushMatrix,
    Cmd.translatef pos.1 pos.2.1 pos.2.2,
    Cmd.rotatef 90 1 0 0,
    Cmd.rotatef rotationAngle 0 1 0,
    Cmd.enable Cap.texture2D ]
    ++ bindPlanetTexture tex i
    ++ [ Cmd.sphere (Body.planet i) (0.5 + 0.1 * (i : α)) 32 32,
         Cmd.disable Cap.texture2D ]
    ++ (if i = 5 then
          [Cmd.pushMatrix] ++ drawTexturedRing E 1.3 2.1 64 tex.saturnRingTexture
            ++ [Cmd.popMatrix]
        else [])
    ++ (if i = 2 then drawMoon E elapsedTime else [])
    ++ [Cmd.popMatrix]

/-- One iteration of the loop over the planets, lines 230-292. -/
def drawOrbitAndPlanet (E : CLib α) (tex : Textures) (elapsedTime : α) (i : Nat) :
    List (Cmd α) :=
  [Cmd.disable Cap.lighting, Cmd.color4f 1 1 1 0.5]
    ++ drawOrbit E (ORBITAL_RADII.getD i 0)
    ++ [Cmd.enable Cap.lighting]
    ++ drawPlanetAt E tex elapsedTime i (orbitPosition E i elapsedTime)

/-- The camera and light set-up of a frame, lines 195-209. -/
def setupView : List (Cmd α) :=
  [ Cmd.matrixMode MatrixMode.projection,
    Cmd.loadIdentity,
    Cmd.perspective 45 (800 / 600) 1 500,
    Cmd.matrixMode MatrixMode.modelview,
    Cmd.loadIdentity,
    Cmd.lookAt 35 35 35 0 0 0 0 1 0,
    Cmd.lightfv LightParam.position ![0, 0, 0, 1],
    Cmd.enable Cap.depthTest ]

/-- The GL commands of one iteration of the main loop (lines 190-295) at
elapsed time `elapsedTime`; `rnd k` is the k-th value `rand()` returns
during the frame. -/
def frame (E : CLib α) (tex : Textures) (elapsedTime : α) (rnd : Nat → Nat) :
    List (Cmd α) :=
  [Cmd.clear]
    ++ drawBackground tex.backgroundTexture
    ++ setupView
    ++ drawSun tex
    ++ (List.range 8).flatMap (drawOrbitAndPlanet E tex elapsedTime)
    ++ drawAsteroidBelt E 9 11 500 tex.asteroidTexture rnd

/-! ## The clock (lines 182-188) -/

/-- The two clock variables of `main`. -/
structure Clock (α : Type) where
  previousTime : α
  elapsedTime : α

/-- Lines 182-183: `previousTime = glfwGetTime(); elapsedTime = 0.0`. -/
def Clock.start (t0 : α) : Clock α :=
  { previousTime := t0, elapsedTime := 0 }

/-- Lines 186-188, for the reading `currentTime` of `glfwGetTime()`. -/
def Clock.tick (c : Clock α) (currentTime : α) : Clock α :=
  { previousTime := currentTime,
    elapsedTime := c.elapsedTime + (currentTime - c.previousTime) }

/-- The clock after the frames whose readings are `readings`, in order. -/
def Clock.after (c : Clock α) (readings : List α) : Clock α :=
  readings.foldl Clock.tick c

/-- The GL commands of the main loop, lines 185-299: one frame per clock
reading, as long as the window is not closed.  `n` counts the calls of
`rand()` made so far; a frame makes 1000 of them. -/
def mainLoop (E : CLib α) (tex : Textures) (rnd : Nat → Nat) :
    Clock α → Nat → List α → List (Cmd α)
  | _, _, [] => []
  | c, n, currentTime :: rest =>
      frame E tex (c.tick currentTime).elapsedTime (fun k => rnd (n + k))
        ++ mainLoop E tex rnd (c.tick currentTime) (n + 1000) rest

/-! ## The GL state and the meaning of the commands -/

/-- A matrix stack: the current matrix and the saved ones below it. -/
structure Stack (α : Type) where
  top : Mat4 α
  below : List (Mat4 α)

/-- Number of entries of a stack. -/
def Stack.depth (s : Stack α) : Nat := s.below.length + 1

/-- Command `glPushMatrix` on one stack of capacity `max`: duplicates the top, or
fails (GL_STACK_OVERFLOW) when the stack is full. -/
def Stack.push (max : Nat) (s : Stack α) : Option (Stack α) :=
  if s.depth < max then some { top := s.top, below := s.top :: s.below } else none

/-- Command `glPopMatrix` on one stack: fails (GL_STACK_UNDERFLOW) on a stack with a
single entry. -/
def Stack.pop (s : Stack α) : Option (Stack α) :=
  match s.below with
  | [] => none
  | m :: rest => some { top := m, below := rest }

/-- The implementation limits GL_MAX_MODELVIEW_STACK_DEPTH,
GL_MAX_PROJECTION_STACK_DEPTH and GL_MAX_TEXTURE_STACK_DEPTH. -/
structure Limits where
  maxModelview : Nat
  maxProjection : Nat
  maxTexture : Nat

/-- The front material registers. -/
structure Material (α : Type) where
  ambient : Vec4 α
  diffuse : Vec4 α
  specular : Vec4 α
  emission : Vec4 α
  shininess : α

/-- The registers of GL_LIGHT0; the position is kept in eye coordinates. -/
structure Light (α : Type) where
  ambient : Vec4 α
  diffuse : Vec4 α
  specular : Vec4 α
  position : Vec4 α

/-- The part of the GL state the program's commands read or write. -/
structure GLState (α : Type) where
  mode : MatrixMode
  modelview : Stack α
  projection : Stack α
  textureStack : Stack α
  lighting : Bool
  light0 : Bool
  depthTest : Bool
  blend : Bool
  texture2D : Bool
  boundTexture : Nat
  color : Vec4 α
  material : Material α
  light : Light α
  error : Option GLError

/-- The state of a freshly created context (OpenGL 2.1 specification, state
tables). -/
def GLState.initial : GLState α :=
  { mode := MatrixMode.modelview
    modelview := { top := 1, below := [] }
    projection := { top := 1, below := [] }
    textureStack := { top := 1, below := [] }
    lighting := false
    light0 := false
    depthTest := false
    blend := false
    texture2D := false
    boundTexture := 0
    color := ![1, 1, 1, 1]
    material :=
      { ambient := ![0.2, 0.2, 0.2, 1], diffuse := ![0.8, 0.8, 0.8, 1],
        specular := ![0, 0, 0, 1], emission := ![0, 0, 0, 1], shininess := 0 }
    light :=
      { ambient := ![0, 0, 0, 1], diffuse := ![1, 1, 1, 1],
        specular := ![1, 1, 1, 1], position := ![0, 0, 1, 0] }
    error := none }

/-- The stack selected by the matrix mode. -/
def GLState.current (s : GLState α) : Stack α :=
  match s.mode with
  | MatrixMode.modelview => s.modelview
  | MatrixMode.projection => s.projection
  | MatrixMode.texture => s.textureStack

/-- Replace the stack selected by the matrix mode. -/
def GLState.setCurrent (s : GLState α) (k : Stack α) : GLState α :=
  match s.mode with
  | MatrixMode.modelview => { s with modelview := k }
  | MatrixMode.projection => { s with projection := k }
  | MatrixMode.texture => { s with textureStack := k }

/-- Capacity of the stack selected by the matrix mode. -/
def Limits.current (L : Limits) (m : MatrixMode) : Nat :=
  match m with
  | MatrixMode.modelview => L.maxModelview
  | MatrixMode.projection => L.maxProjection
  | MatrixMode.texture => L.maxTexture

/-- Record an error; the command that raised it is otherwise ignored, and
the first error recorded stays until it is queried. -/
def GLState.raise (s : GLState α) (e : GLError) : GLState α :=
  { s with error := match s.error with
                    | some e0 => some e0
                    | none => some e }

/-- Multiply the current matrix on the right by `m` (`glMultMatrix`). -/
def GLState.mult (s : GLState α) (m : Mat4 α) : GLState α :=
  s.setCurrent { s.current with top := s.current.top * m }

/-- Set a capability. -/
def GLState.setCap (s : GLState α) (c : Cap) (b : Bool) : GLState α :=
  match c with
  | Cap.lighting => { s with lighting := b }
  | Cap.light0 => { s with light0 := b }
  | Cap.depthTest => { s with depthTest := b }
  | Cap.blend => { s with blend := b }
  | Cap.texture2D => { s with texture2D := b }

/-- The matrix of `glTranslatef(x, y, z)`. -/
def translation (x y z : α) : Mat4 α :=
  !![1, 0, 0, x;
     0, 1, 0, y;
     0, 0, 1, z;
     0, 0, 0, 1]

/-- The matrix of `glRotatef(angle, x, y, z)`: rotation by `angle` degrees
about the axis `(x, y, z)`, which is normalised first. -/
def rotation (E : CLib α) (angle x y z : α) : Mat4 α :=
  let n := E.sqrt (x * x + y * y + z * z)
  let x := x / n
  let y := y / n
  let z := z / n
  let c := E.cos (angle * E.pi / 180)
  let s := E.sin (angle * E.pi / 180)
  !![x * x * (1 - c) + c,     x * y * (1 - c) - z * s, x * z * (1 - c) + y * s, 0;
     y * x * (1 - c) + z * s, y * y * (1 - c) + c,     y * z * (1 - c) - x * s, 0;
     x * z * (1 - c) - y * s, y * z * (1 - c) + x * s, z * z * (1 - c) + c,     0;
     0,                       0,                       0,                       1]

/-- The matrix of `glOrtho(l, r, b, t, n, f)`. -/
def orthographic (l r b t n f : α) : Mat4 α :=
  !![2 / (r - l), 0,           0,            -((r + l) / (r - l));
     0,           2 / (t - b), 0,            -((t + b) / (t - b));
     0,           0,           -(2 / (f - n)), -((f + n) / (f - n));
     0,           0,           0,            1]

/-- The matrix of `gluPerspective(fovy, aspect, zNear, zFar)`, given the
cotangent of half the field of view. -/
def perspectiveMatrix (cotangent aspect zNear zFar : α) : Mat4 α :=
  !![cotangent / aspect, 0,         0,                                 0;
     0,                  cotangent, 0,                                 0;
     0,                  0,         -((zFar + zNear) / (zFar - zNear)), -(2 * zNear * zFar / (zFar - zNear));
     0,                  0,         -1,                                0]

/-- The matrix of `gluLookAt`: the rotation to the camera frame (forward
and side normalised) followed by the translation of the eye to the origin. -/
def lookAtMatrix (E : CLib α) (eyeX eyeY eyeZ centerX centerY centerZ upX upY upZ : α) :
    Mat4 α :=
  let fx := centerX - eyeX
  let fy := centerY - eyeY
  let fz := centerZ - eyeZ
  let nf := E.sqrt (fx * fx + fy * fy + fz * fz)
  let fx := fx / nf
  let fy := fy / nf
  let fz := fz / nf
  let sx := fy * upZ - fz * upY
  let sy := fz * upX - fx * upZ
  let sz := fx * upY - fy * upX
  let ns := E.sqrt (sx * sx + sy * sy + sz * sz)
  let sx := sx / ns
  let sy := sy / ns
  let sz := sz / ns
  let ux := sy * fz - sz * fy
  let uy := sz * fx - sx * fz
  let uz := sx * fy - sy * fx
  !![sx, sy, sz, 0;
     ux, uy, uz, 0;
     -fx, -fy, -fz, 0;
     0, 0, 0, 1] * translation (-eyeX) (-eyeY) (-eyeZ)

/-- The effect of one command on the GL state. -/
def exec (E : CLib α) (L : Limits) (s : GLState α) : Cmd α → GLState α
  | Cmd.matrixMode m => { s with mode := m }
  | Cmd.pushMatrix =>
      match s.current.push (L.current s.mode) with
      | some k => s.setCurrent k
      | none => s.raise GLError.stackOverflow
  | Cmd.popMatrix =>
      match s.current.pop with
      | some k => s.setCurrent k
      | none => s.raise GLError.stackUnderflow
  | Cmd.loadIdentity => s.setCurrent { s.current with top := 1 }
  | Cmd.translatef x y z => s.mult (translation x y z)
  | Cmd.rotatef angle x y z => s.mult (rotation E angle x y z)
  | Cmd.ortho l r b t n f =>
      if l = r ∨ b = t ∨ n = f then s.raise GLError.invalidValue
      else s.mult (orthographic l r b t n f)
  | Cmd.perspective fovy aspect zNear zFar =>
      let radians := fovy / 2 * E.pi / 180
      if zFar - zNear = 0 ∨ E.sin radians = 0 ∨ aspect = 0 then s
      else s.mult (perspectiveMatrix (E.cos radians / E.sin radians) aspect zNear zFar)
  | Cmd.lookAt ex ey ez cx cy cz ux uy uz => s.mult (lookAtMatrix E ex ey ez cx cy cz ux uy uz)
  | Cmd.enable c => s.setCap c true
  | Cmd.disable c => s.setCap c false
  | Cmd.bindTexture tex => { s with boundTexture := tex }
  | Cmd.color4f r g b a => { s with color := ![r, g, b, a] }
  | Cmd.materialfv MaterialParam.ambient v => { s with material := { s.material with ambient := v } }
  | Cmd.materialfv MaterialParam.diffuse v => { s with material := { s.material with diffuse := v } }
  | Cmd.materialfv MaterialParam.specular v => { s with material := { s.material with specular := v } }
  | Cmd.materialfv MaterialParam.emission v => { s with material := { s.material with emission := v } }
  | Cmd.materialShininess x => { s with material := { s.material with shininess := x } }
  | Cmd.lightfv LightParam.ambient v => { s with light := { s.light with ambient := v } }
  | Cmd.lightfv LightParam.diffuse v => { s with light := { s.light with diffuse := v } }
  | Cmd.lightfv LightParam.specular v => { s with light := { s.light with specular := v } }
  | Cmd.lightfv LightParam.position v =>
      { s with light := { s.light with position := Matrix.mulVec s.modelview.top v } }
  | Cmd.clear => s
  | Cmd.glBegin _ => s
  | Cmd.glEnd => s
  | Cmd.texCoord2f _ _ => s
  | Cmd.vertex3f _ _ _ => s
  | Cmd.vertex2f _ _ => s
  | Cmd.sphere _ _ _ _ => s

/-- The state after a trace. -/
def run (E : CLib α) (L : Limits) (s : GLState α) (cmds : List (Cmd α)) : GLState α :=
  cmds.foldl (exec E L) s

/-- Every command of a trace, paired with the state it is issued in. -/
def annotate (E : CLib α) (L : Limits) : GLState α → List (Cmd α) → List (GLState α × Cmd α)
  | _, [] => []
  | s, c :: cs => (s, c) :: annotate E L (exec E L s c) cs

/-- The commands that emit geometry: vertices and quadric spheres. -/
def Cmd.isDraw : Cmd α → Bool
  | Cmd.vertex3f _ _ _ => true
  | Cmd.vertex2f _ _ => true
  | Cmd.sphere _ _ _ _ => true
  | _ => false

/-- Whether a command is the `gluSphere` call of the given body. -/
def Cmd.isSphereOf (b : Body) : Cmd α → Bool
  | Cmd.sphere site _ _ _ => decide (site = b)
  | _ => false

/-- The geometry a trace draws, each draw with the state it is drawn in. -/
def draws (E : CLib α) (L : Limits) (s : GLState α) (cmds : List (Cmd α)) :
    List (GLState α × Cmd α) :=
  (annotate E L s cmds).filter (fun p => p.2.isDraw)

/-- The states in which the spheres of body `b` are drawn. -/
def statesAt (E : CLib α) (L : Limits) (b : Body) (s : GLState α) (cmds : List (Cmd α)) :
    List (GLState α) :=
  ((annotate E L s cmds).filter (fun p => p.2.isSphereOf b)).map Prod.fst

/-! ## Notions used to state the properties -/

/-- Whether a command is a `gluSphere` call. -/
def Cmd.isSphere : Cmd α → Bool
  | Cmd.sphere _ _ _ _ => true
  | _ => false

/-- Whether a command writes a material register. -/
def Cmd.isMaterial : Cmd α → Bool
  | Cmd.materialfv _ _ => true
  | Cmd.materialShininess _ => true
  | _ => false

/-- Whether a command writes the emission register. -/
def Cmd.setsEmission : Cmd α → Bool
  | Cmd.materialfv MaterialParam.emission _ => true
  | _ => false

/-- Whether a command reads or writes the matrix mode or a matrix stack. -/
def Cmd.isMatrix : Cmd α → Bool
  | Cmd.matrixMode _ => true
  | Cmd.pushMatrix => true
  | Cmd.popMatrix => true
  | Cmd.loadIdentity => true
  | Cmd.translatef _ _ _ => true
  | Cmd.rotatef _ _ _ _ => true
  | Cmd.ortho _ _ _ _ _ _ => true
  | Cmd.perspective _ _ _ _ => true
  | Cmd.lookAt _ _ _ _ _ _ _ _ _ => true
  | _ => false

/-- The commands of a frame issued before iteration `i` of the loop over
the planets. -/
def frameUpToPlanet (E : CLib α) (tex : Textures) (elapsedTime : α) (i : Nat) :
    List (Cmd α) :=
  [Cmd.clear]
    ++ drawBackground tex.backgroundTexture
    ++ setupView
    ++ drawSun tex
    ++ (List.range i).flatMap (drawOrbitAndPlanet E tex elapsedTime)

/-- The readings of the first `k` frames of a run whose clock reads `t 0`
before the loop and `t j` at the start of frame `j`. -/
def readingsUpTo (t : Nat → α) (k : Nat) : List α :=
  (List.range k).map (fun (j : Nat) => t (j + 1))

/-- The commands of a frame issued before the sun's `gluSphere` call
(lines 190-220). -/
def frameUpToSun (tex : Textures) : List (Cmd α) :=
  [Cmd.clear]
    ++ drawBackground tex.backgroundTexture
    ++ setupView
    ++ [Cmd.pushMatrix, Cmd.translatef 0 0 0, Cmd.rotatef 90 1 0 0]
    ++ setMaterialColor 1 1 0 100
    ++ setEmissiveColor 0.5 0.5 0
    ++ [Cmd.enable Cap.texture2D, Cmd.bindTexture tex.sunTexture]

/-- The commands of the sun's draw sequence after its `gluSphere` call
(lines 224-227). -/
def sunTail : List (Cmd α) :=
  [Cmd.disable Cap.texture2D] ++ setEmissiveColor 0 0 0 ++ [Cmd.popMatrix]

/-- The commands of a planet iteration up to, not including, the planet's
`gluSphere` call (lines 232-264). -/
def planetHead (E : CLib α) (tex : Textures) (T : α) (i : Nat) : List (Cmd α) :=
  [Cmd.disable Cap.lighting, Cmd.color4f 1 1 1 0.5]
    ++ drawOrbit E (ORBITAL_RADII.getD i 0)
    ++ [ Cmd.enable Cap.lighting,
         Cmd.pushMatrix,
         Cmd.translatef (orbitPosition E i T).1 (orbitPosition E i T).2.1
           (orbitPosition E i T).2.2,
         Cmd.rotatef 90 1 0 0,
         Cmd.rotatef (T * ROTATION_SPEEDS.getD i 0) 0 1 0,
         Cmd.enable Cap.texture2D ]
    ++ bindPlanetTexture tex i

/-- The commands of a planet iteration after the planet's `gluSphere` call
(lines 268-291). -/
def planetTail (E : CLib α) (tex : Textures) (T : α) (i : Nat) : List (Cmd α) :=
  [Cmd.disable Cap.texture2D]
    ++ (if i = 5 then
          [Cmd.pushMatrix] ++ drawTexturedRing E 1.3 2.1 64 tex.saturnRingTexture
            ++ [Cmd.popMatrix]
        else [])
    ++ (if i = 2 then drawMoon E T else [])
    ++ [Cmd.popMatrix]

/-- The commands of Earth's iteration between Earth's `gluSphere` call and
the moon's (lines 268-286). -/
def moonHead (E : CLib α) (T : α) : List (Cmd α) :=
  [ Cmd.disable Cap.texture2D,
    Cmd.pushMatrix,
    Cmd.translatef (MOON_ORBITAL_RADIUS * E.cos (T * MOON_ORBITAL_SPEED)) 0
      (MOON_ORBITAL_RADIUS * E.sin (T * MOON_ORBITAL_SPEED)),
    Cmd.rotatef 90 1 0 0 ]
    ++ setMaterialColor 0.8 0.8 0.8 10

/-- The effect of a command on the material registers alone. -/
def execMaterial (m : Material α) : Cmd α → Material α
  | Cmd.materialfv MaterialParam.ambient v => { m with ambient := v }
  | Cmd.materialfv MaterialParam.diffuse v => { m with diffuse := v }
  | Cmd.materialfv MaterialParam.specular v => { m with specular := v }
  | Cmd.materialfv MaterialParam.emission v => { m with emission := v }
  | Cmd.materialShininess x => { m with shininess := x }
  | _ => m

/-- The effect of a command on the modelview stack when the matrix mode is
GL_MODELVIEW. -/
def execModelview (E : CLib α) (L : Limits) (k : Stack α) : Cmd α → Stack α
  | Cmd.pushMatrix =>
      match k.push L.maxModelview with
      | some k1 => k1
      | none => k
  | Cmd.popMatrix =>
      match k.pop with
      | some k1 => k1
      | none => k
  | Cmd.loadIdentity => { k with top := 1 }
  | Cmd.translatef x y z => { k with top := k.top * translation x y z }
  | Cmd.rotatef angle x y z => { k with top := k.top * rotation E angle x y z }
  | Cmd.ortho l r b t n f =>
      if l = r ∨ b = t ∨ n = f then k
      else { k with top := k.top * orthographic l r b t n f }
  | Cmd.perspective fovy aspect zNear zFar =>
      let radians := fovy / 2 * E.pi / 180
      let m := perspectiveMatrix (E.cos radians / E.sin radians) aspect zNear zFar
      if zFar - zNear = 0 ∨ E.sin radians = 0 ∨ aspect = 0 then k
      else { k with top := k.top * m }
  | Cmd.lookAt ex ey ez cx cy cz ux uy uz =>
      { k with top := k.top * lookAtMatrix E ex ey ez cx cy cz ux uy uz }
  | _ => k

/-- The effect of a command on the matrix mode and the modelview stack
alone. -/
def execMV (E : CLib α) (L : Limits) (p : MatrixMode × Stack α) (c : Cmd α) :
    MatrixMode × Stack α :=
  match c with
  | Cmd.matrixMode m => (m, p.2)
  | _ => if p.1 = MatrixMode.modelview then (p.1, execModelview E L p.2 c) else p

/-- The camera matrix of the frame: `gluLookAt(35, 35, 35, 0, 0, 0, 0, 1, 0)`. -/
def viewMatrix (E : CLib α) : Mat4 α := lookAtMatrix E 35 35 35 0 0 0 0 1 0

/-- The model transform in effect at the sun's `gluSphere` call. -/
def sunModel (E : CLib α) : Mat4 α := translation 0 0 0 * rotation E 90 1 0 0

/-- The model transform in effect at the `gluSphere` call of planet `i`,
when its scope is entered by translating to `pos`. -/
def planetModel (E : CLib α) (T : α) (i : Nat) (pos : α × α × α) : Mat4 α :=
  translation pos.1 pos.2.1 pos.2.2 * rotation E 90 1 0 0
    * rotation E (T * ROTATION_SPEEDS.getD i 0) 0 1 0

/-- The model transform in effect at the moon's `gluSphere` call, when
Earth's scope is entered by translating to `pos`. -/
def moonModel (E : CLib α) (T : α) (pos : α × α × α) : Mat4 α :=
  planetModel E T 2 pos
    * translation (MOON_ORBITAL_RADIUS * E.cos (T * MOON_ORBITAL_SPEED)) 0
        (MOON_ORBITAL_RADIUS * E.sin (T * MOON_ORBITAL_SPEED))
    * rotation E 90 1 0 0

/-- The `x` of line 48, for the values `r1`, `r2` that `rand()` returns at
lines 46 and 47. -/
def asteroidX (E : CLib α) (innerRadius outerRadius : α) (r1 r2 : Nat) : α :=
  asteroidRadius E innerRadius outerRadius r2 * E.cos (asteroidAngle E r1)

/-- The `z` of line 49, for the values `r1`, `r2` that `rand()` returns at
lines 46 and 47. -/
def asteroidZ (E : CLib α) (innerRadius outerRadius : α) (r1 r2 : Nat) : α :=
  asteroidRadius E innerRadius outerRadius r2 * E.sin (asteroidAngle E r1)

/-- The commands of a frame issued before the call of `drawTexturedRing` for
Saturn's ring (up to the `glPushMatrix` of line 272). -/
def frameUpToRing (E : CLib α) (tex : Textures) (elapsedTime : α) : List (Cmd α) :=
  frameUpToPlanet E tex elapsedTime 5
    ++ planetHead E tex elapsedTime 5
    ++ [ Cmd.sphere (Body.planet 5) (0.5 + 0.1 * ((5 : Nat) : α)) 32 32,
         Cmd.disable Cap.texture2D,
         Cmd.pushMatrix ]

/-- The vertices `drawTexturedRing` emits, in order: for each `i` from 0 to
`segments`, the one on the inner circle and the one on the outer circle. -/
def ringVertices (E : CLib α) (innerRadius outerRadius : α) (segments : Int) :
    List (Cmd α) :=
  (List.range (segments + 1).toNat).flatMap (fun (i : Nat) =>
    [ Cmd.vertex3f (innerRadius * E.cos (2 * PI E * (i : α) / (segments : α))) 0
        (innerRadius * E.sin (2 * PI E * (i : α) / (segments : α))),
      Cmd.vertex3f (outerRadius * E.cos (2 * PI E * (i : α) / (segments : α))) 0
        (outerRadius * E.sin (2 * PI E * (i : α) / (segments : α))) ])

/-! ## Lines 46-47 in binary32

The values of `float` are rationals; every operation computes the exact
result and rounds it to the nearest `float`, ties to the even mantissa.
Each operation of lines 46-47 is rounded on its own, as a compiler does that
evaluates `float` expressions in `float` (`FLT_EVAL_METHOD` 0).
Overflow to infinity is not part of the model: it agrees with binary32 as
long as the exact results stay below `2 ^ 128`, which the statements about
it assume of their inputs. -/

/-- The nearest integer, ties to even. -/
def roundHalfEven (y : ℚ) : ℤ :=
  if y - ⌊y⌋ < 1 / 2 then ⌊y⌋
  else if 1 / 2 < y - ⌊y⌋ then ⌊y⌋ + 1
  else if ⌊y⌋ % 2 = 0 then ⌊y⌋
  else ⌊y⌋ + 1

/-- The exponent of the spacing of the `float` values around `x ≥ 0`: 24
significant bits in the binade of `x`, and `2 ^ (-149)` in the subnormal
range. -/
def quantumExp (x : ℚ) : ℤ := max (Int.log 2 x - 23) (-149)

/-- Rounding of `x ≥ 0` to the nearest `float`. -/
def roundPos (x : ℚ) : ℚ :=
  (roundHalfEven (x / 2 ^ quantumExp x) : ℚ) * 2 ^ quantumExp x

/-- Rounding to the nearest `float`, ties to even. -/
def roundF32 (x : ℚ) : ℚ :=
  if x < 0 then -roundPos (-x) else roundPos x

/-- The value the constant `PI` holds: the `float` nearest to the literal
3.14159265358979323846. -/
def PI_F32 : ℚ := roundF32 3.14159265358979323846

/-- The quotient `static_cast<float>(rand()) / RAND_MAX` of lines 46 and 47
in `float`: both operands are converted to `float`, then divided. -/
def unitRandF32 (RAND_MAX r : Nat) : ℚ :=
  roundF32 (roundF32 (r : ℚ) / roundF32 (RAND_MAX : ℚ))

/-- The angle of line 46 in `float`, for the value `r` returned by `rand()`. -/
def asteroidAngleF32 (RAND_MAX r : Nat) : ℚ :=
  roundF32 (roundF32 (unitRandF32 RAND_MAX r * roundF32 2.0) * PI_F32)

/-- The radius of line 47 in `float`, for `float` arguments `innerRadius`,
`outerRadius` and the value `r` returned by `rand()`. -/
def asteroidRadiusF32 (RAND_MAX : Nat) (innerRadius outerRadius : ℚ) (r : Nat) : ℚ :=
  roundF32 (innerRadius
    + roundF32 (unitRandF32 RAND_MAX r * roundF32 (outerRadius - innerRadius)))

end Program

/-! # Properties -/

/-! ## Orbit positions -/

theorem cos_shift_period (s T : ℝ) (hs : s ≠ 0) :
    Real.cos ((T + 2 * Real.pi / s) * s) = Real.cos (T * s) := by
  have h : (T + 2 * Real.pi / s) * s = T * s + 2 * Real.pi := by
    field_simp
  rw [h, Real.cos_add_two_pi]

theorem sin_shift_period (s T : ℝ) (hs : s ≠ 0) :
    Real.sin ((T + 2 * Real.pi / s) * s) = Real.sin (T * s) := by
  have h : (T + 2 * Real.pi / s) * s = T * s + 2 * Real.pi := by
    field_simp
  rw [h, Real.sin_add_two_pi]

theorem ORBITAL_SPEEDS_ne_zero (i : Fin 8) : (ORBITAL_SPEEDS.getD i.val 0 : ℝ) ≠ 0 := by
  fin_cases i <;> simp [ORBITAL_SPEEDS] <;> norm_num

/-- C1. For every planet index `i` in 0..7 and every elapsed time `T`, the
orbit position the frame loop computes is
`(ORBITAL_RADII[i] cos(T ORBITAL_SPEEDS[i]), 0, ORBITAL_RADII[i] sin(T ORBITAL_SPEEDS[i]))`,
and it is the same at `T + 2π / ORBITAL_SPEEDS[i]` as at `T`. -/
theorem orbitPosition_periodic (R : Nat) (i : Fin 8) (T : ℝ) :
    orbitPosition (realLib R) i.val T
        = (ORBITAL_RADII.getD i.val 0 * Real.cos (T * ORBITAL_SPEEDS.getD i.val 0), 0,
           ORBITAL_RADII.getD i.val 0 * Real.sin (T * ORBITAL_SPEEDS.getD i.val 0))
      ∧ orbitPosition (realLib R) i.val (T + 2 * Real.pi / ORBITAL_SPEEDS.getD i.val 0)
        = orbitPosition (realLib R) i.val T := by
  refine ⟨rfl, ?_⟩
  simp only [orbitPosition, realLib]
  rw [cos_shift_period _ _ (ORBITAL_SPEEDS_ne_zero i),
    sin_shift_period _ _ (ORBITAL_SPEEDS_ne_zero i)]

/-! ## The clock -/

theorem Clock.after_snoc (c : Clock ℝ) (l : List ℝ) (t : ℝ) :
    c.after (l ++ [t]) = (c.after l).tick t := by
  simp [Clock.after, List.foldl_append]

theorem clock_state (t : Nat → ℝ) (k : Nat) :
    (Clock.start (t 0)).after (readingsUpTo t k)
      = { previousTime := t k, elapsedTime := t k - t 0 } := by
  induction k with
  | zero => simp [readingsUpTo, Clock.after, Clock.start]
  | succ k ih =>
    have hsnoc : readingsUpTo t (k + 1) = readingsUpTo t k ++ [t (k + 1)] := by
      simp [readingsUpTo, List.range_succ]
    rw [hsnoc, Clock.after_snoc, ih]
    simp [Clock.tick]

/-- C7. For clock readings `t 0 ≤ t 1 ≤ ...` (`t 0` read before the loop,
`t k` at the start of frame `k`), the elapsed time after frame `k` is
`t k - t 0`, whatever the readings in between, and it is non-decreasing in
`k`. -/
theorem elapsedTime_clock_invariant (t : Nat → ℝ) (ht : Monotone t) :
    (∀ k, ((Clock.start (t 0)).after (readingsUpTo t k)).elapsedTime = t k - t 0)
      ∧ (∀ j k, j ≤ k →
          ((Clock.start (t 0)).after (readingsUpTo t j)).elapsedTime
            ≤ ((Clock.start (t 0)).after (readingsUpTo t k)).elapsedTime) := by
  refine ⟨fun k => by rw [clock_state], fun j k hjk => ?_⟩
  rw [clock_state, clock_state]
  have hle := ht hjk
  simp only
  linarith

/-- Witness of C7: the readings 0, 1, 2, 3. -/
theorem elapsedTime_clock_invariant_witness :
    Monotone (fun n : Nat => (n : ℝ))
      ∧ ((Clock.start ((0 : Nat) : ℝ)).after
            (readingsUpTo (fun n : Nat => (n : ℝ)) 3)).elapsedTime
          = ((3 : Nat) : ℝ) - ((0 : Nat) : ℝ) :=
  ⟨Nat.mono_cast, (elapsedTime_clock_invariant (fun n : Nat => (n : ℝ)) Nat.mono_cast).1 3⟩

/-! ## The asteroid belt -/

theorem unit_fraction (R r : Nat) (hR : 0 < R) (hr : r ≤ R) :
    0 ≤ (r : ℝ) / (R : ℝ) ∧ (r : ℝ) / (R : ℝ) ≤ 1 := by
  have hR0 : (0 : ℝ) < R := by exact_mod_cast hR
  have hrR : (r : ℝ) ≤ R := by exact_mod_cast hr
  exact ⟨by positivity, (div_le_one hR0).mpr hrR⟩

theorem asteroidRadius_mem (R r : Nat) (hR : 0 < R) (hr : r ≤ R) (inner outer : ℝ)
    (h : inner ≤ outer) :
    inner ≤ asteroidRadius (realLib R) inner outer r
      ∧ asteroidRadius (realLib R) inner outer r ≤ outer := by
  obtain ⟨h0, h1⟩ := unit_fraction R r hR hr
  simp only [asteroidRadius, realLib]
  constructor <;> nlinarith

theorem planar_distance (rad a : ℝ) (h : 0 ≤ rad) :
    Real.sqrt ((rad * Real.cos a) ^ 2 + (rad * Real.sin a) ^ 2) = rad := by
  have hsq : (rad * Real.cos a) ^ 2 + (rad * Real.sin a) ^ 2 = rad ^ 2 := by
    have := Real.cos_sq_add_sin_sq a
    nlinarith
  rw [hsq, Real.sqrt_sq h]

theorem mem_drawAsteroid_translatef (E : CLib ℝ) (inner outer : ℝ) (tex i r1 r2 : Nat)
    (x y z : ℝ) (h : Cmd.translatef x y z ∈ drawAsteroid E inner outer tex i r1 r2) :
    x = asteroidRadius E inner outer r2 * E.cos (asteroidAngle E r1) ∧ y = 0
      ∧ z = asteroidRadius E inner outer r2 * E.sin (asteroidAngle E r1) := by
  simpa [drawAsteroid, setMaterialColor] using h

theorem count_spheres_belt (E : CLib ℝ) (inner outer : ℝ) (tex : Nat) (rnd : Nat → Nat)
    (n : Nat) :
    (((List.range n).flatMap (fun (i : Nat) =>
        drawAsteroid E inner outer tex i (rnd (2 * i)) (rnd (2 * i + 1)))).filter
          Cmd.isSphere).length = n := by
  induction n with
  | zero => simp
  | succ n ih =>
    rw [List.range_succ, List.flatMap_append, List.filter_append, List.length_append, ih]
    simp [drawAsteroid, setMaterialColor, Cmd.isSphere]

theorem belt_translations (R : Nat) (hR : 0 < R) (inner outer : ℝ)
    (h0 : 0 ≤ inner) (hio : inner ≤ outer) (N : Int) (tex : Nat) (rnd : Nat → Nat)
    (hrnd : ∀ k, rnd k ≤ R) (x y z : ℝ)
    (hmem : Cmd.translatef x y z ∈ drawAsteroidBelt (realLib R) inner outer N tex rnd) :
    y = 0 ∧ inner ≤ Real.sqrt (x ^ 2 + z ^ 2) ∧ Real.sqrt (x ^ 2 + z ^ 2) ≤ outer := by
  simp only [drawAsteroidBelt, List.mem_flatMap, List.mem_range] at hmem
  obtain ⟨i, -, hi⟩ := hmem
  obtain ⟨hx, hy, hz⟩ := mem_drawAsteroid_translatef _ _ _ _ _ _ _ _ _ _ hi
  obtain ⟨hlo, hhi⟩ := asteroidRadius_mem R (rnd (2 * i + 1)) hR (hrnd _) inner outer hio
  have hrad : 0 ≤ asteroidRadius (realLib R) inner outer (rnd (2 * i + 1)) := le_trans h0 hlo
  have hd := planar_distance _ (asteroidAngle (realLib R) (rnd (2 * i))) hrad
  subst hx hz
  simp only [realLib] at hd ⊢
  rw [hd]
  exact ⟨hy, hlo, hhi⟩

/-! ## The orbit curve -/

/-- C4. For every radius `r ≥ 0`, `drawOrbit(r)` issues `glBegin(GL_LINE_LOOP)`,
then 360 vertices, then `glEnd`; the k-th vertex is
`(r cos(k PI / 180), 0, r sin(k PI / 180))`; every vertex has `y = 0` and
distance `sqrt(x^2 + z^2) = r` from the vertical axis. -/
theorem drawOrbit_closed_loop_on_circle (R : Nat) (r : ℝ) (hr : 0 ≤ r) :
    (drawOrbit (realLib R) r).length = 362
      ∧ (drawOrbit (realLib R) r)[0]? = some (Cmd.glBegin Prim.lineLoop)
      ∧ (drawOrbit (realLib R) r)[361]? = some Cmd.glEnd
      ∧ (∀ k : Nat, k < 360 →
          (drawOrbit (realLib R) r)[k + 1]?
            = some (Cmd.vertex3f (r * Real.cos ((k : ℝ) * PI (realLib R) / 180)) 0
                      (r * Real.sin ((k : ℝ) * PI (realLib R) / 180))))
      ∧ (∀ x y z, Cmd.vertex3f x y z ∈ drawOrbit (realLib R) r →
          y = 0 ∧ Real.sqrt (x ^ 2 + z ^ 2) = r) := by
  refine ⟨by simp [drawOrbit], by simp [drawOrbit], ?_, ?_, ?_⟩
  · simp only [drawOrbit, List.singleton_append, List.cons_append]
    rw [List.getElem?_cons_succ, List.getElem?_append_right (by simp)]
    simp
  · intro k hk
    simp only [drawOrbit, List.singleton_append, List.cons_append]
    rw [List.getElem?_cons_succ, List.getElem?_append_left (by simpa using hk)]
    simp [hk, realLib]
  · intro x y z hmem
    simp only [drawOrbit, List.mem_append, List.mem_singleton, List.mem_map, List.mem_range,
      reduceCtorEq, false_or, or_false, Cmd.vertex3f.injEq] at hmem
    obtain ⟨k, -, hx, hy, hz⟩ := hmem
    subst hx hz
    exact ⟨hy.symm, planar_distance r _ hr⟩

/-- Witness of C4: the orbit of Mercury, radius 2. -/
theorem drawOrbit_closed_loop_on_circle_witness :
    (0 : ℝ) ≤ 2 ∧ (drawOrbit (realLib 32767) (2 : ℝ)).length = 362 :=
  ⟨by norm_num, (drawOrbit_closed_loop_on_circle 32767 2 (by norm_num)).1⟩

/-! ## The background -/

theorem ortho_args_valid : ¬ ((-1 : ℝ) = 1) := by
  norm_num

/-- C6. From every GL state whose projection and modelview stacks have room
for one more entry, whatever the matrix mode and the depth test,
`drawBackground` returns with both stacks (top matrices, saved entries,
depths) as they were and with depth testing enabled; while it draws, the
tops are the orthographic matrix and the identity on stacks one entry
deeper, and depth testing is off. -/
theorem drawBackground_restores_matrices (R : Nat) (L : Limits) (s : GLState ℝ)
    (texture : Nat)
    (hp : s.projection.depth < L.maxProjection) (hm : s.modelview.depth < L.maxModelview) :
    (run (realLib R) L s (drawBackground texture)).projection = s.projection
      ∧ (run (realLib R) L s (drawBackground texture)).modelview = s.modelview
      ∧ (run (realLib R) L s (drawBackground texture)).depthTest = true
      ∧ (∀ d ∈ draws (realLib R) L s (drawBackground texture),
          d.1.projection.top = orthographic 0 800 0 600 (-1) 1 ∧ d.1.modelview.top = 1
            ∧ d.1.projection.depth = s.projection.depth + 1
            ∧ d.1.modelview.depth = s.modelview.depth + 1
            ∧ d.1.depthTest = false) := by
  refine ⟨?_, ?_, ?_, ?_⟩
  · simp [run, drawBackground, exec, GLState.current, GLState.setCurrent, GLState.setCap,
      GLState.mult, Stack.push, Stack.pop, Limits.current, hp, hm, ortho_args_valid]
  · simp [run, drawBackground, exec, GLState.current, GLState.setCurrent, GLState.setCap,
      GLState.mult, Stack.push, Stack.pop, Limits.current, hp, hm, ortho_args_valid]
  · simp [run, drawBackground, exec, GLState.current, GLState.setCurrent, GLState.setCap,
      GLState.mult, Stack.push, Stack.pop, Limits.current, hp, hm, ortho_args_valid]
  · intro d hd
    simp [draws, annotate, drawBackground, exec, GLState.current, GLState.setCurrent,
      GLState.setCap, GLState.mult, Stack.push, Stack.pop, Limits.current, hp, hm,
      ortho_args_valid, Cmd.isDraw] at hd
    rcases hd with h | h | h | h <;> subst h <;> simp [Stack.depth]

/-- Witness of C6: a fresh context with the minimum stack depths the GL
specification guarantees (32 for modelview, 2 for projection). -/
theorem drawBackground_restores_matrices_witness :
    ((GLState.initial : GLState ℝ).projection.depth < (Limits.mk 32 2 2).maxProjection
      ∧ (GLState.initial : GLState ℝ).modelview.depth < (Limits.mk 32 2 2).maxModelview)
      ∧ (run (realLib 32767) (Limits.mk 32 2 2) GLState.initial (drawBackground 12)).projection
          = (GLState.initial : GLState ℝ).projection :=
  ⟨⟨by decide, by decide⟩,
    (drawBackground_restores_matrices 32767 (Limits.mk 32 2 2) GLState.initial 12
      (by decide) (by decide)).1⟩

/-! ## Traces and states: general facts -/

section Traces

variable {α : Type} [Field α] [DecidableEq α]

@[simp] theorem run_nil (E : CLib α) (L : Limits) (s : GLState α) : run E L s [] = s := rfl

@[simp] theorem run_cons (E : CLib α) (L : Limits) (s : GLState α) (c : Cmd α) (t : List (Cmd α)) :
    run E L s (c :: t) = run E L (exec E L s c) t := rfl

theorem run_append (E : CLib α) (L : Limits) (s : GLState α) (t u : List (Cmd α)) :
    run E L s (t ++ u) = run E L (run E L s t) u := by
  simp [run, List.foldl_append]

theorem annotate_append (E : CLib α) (L : Limits) (s : GLState α) (t u : List (Cmd α)) :
    annotate E L s (t ++ u) = annotate E L s t ++ annotate E L (run E L s t) u := by
  induction t generalizing s with
  | nil => simp [annotate]
  | cons c t ih => simp [annotate, ih]

theorem draws_append (E : CLib α) (L : Limits) (s : GLState α) (t u : List (Cmd α)) :
    draws E L s (t ++ u) = draws E L s t ++ draws E L (run E L s t) u := by
  simp [draws, annotate_append]

theorem mem_annotate (E : CLib α) (L : Limits) (s : GLState α) (t : List (Cmd α))
    (d : GLState α × Cmd α) (h : d ∈ annotate E L s t) : d.2 ∈ t := by
  induction t generalizing s with
  | nil => simp [annotate] at h
  | cons c t ih =>
    simp only [annotate, List.mem_cons] at h
    rcases h with h | h
    · subst h; simp
    · exact List.mem_cons_of_mem _ (ih _ h)

theorem exec_material (E : CLib α) (L : Limits) (s : GLState α) (c : Cmd α)
    (h : c.isMaterial = false) : (exec E L s c).material = s.material := by
  cases c with
  | materialfv p v => simp [Cmd.isMaterial] at h
  | materialShininess x => simp [Cmd.isMaterial] at h
  | lightfv p v => cases p <;> rfl
  | pushMatrix =>
    simp only [exec]; split <;> cases hm : s.mode <;> simp [GLState.setCurrent, GLState.raise, hm]
  | popMatrix =>
    simp only [exec]; split <;> cases hm : s.mode <;> simp [GLState.setCurrent, GLState.raise, hm]
  | ortho l r b t n f =>
    simp only [exec]; split <;> cases hm : s.mode <;>
      simp [GLState.mult, GLState.setCurrent, GLState.raise, hm]
  | perspective a b c d =>
    simp only [exec]; split <;> cases hm : s.mode <;>
      simp [GLState.mult, GLState.setCurrent, GLState.raise, hm]
  | enable c => cases c <;> rfl
  | disable c => cases c <;> rfl
  | loadIdentity => cases hm : s.mode <;> simp [exec, GLState.setCurrent, hm]
  | translatef x y z => cases hm : s.mode <;> simp [exec, GLState.mult, GLState.setCurrent, hm]
  | rotatef a x y z => cases hm : s.mode <;> simp [exec, GLState.mult, GLState.setCurrent, hm]
  | lookAt a b c d e f g h i =>
    cases hm : s.mode <;> simp [exec, GLState.mult, GLState.setCurrent, hm]
  | _ => rfl

theorem exec_emission (E : CLib α) (L : Limits) (s : GLState α) (c : Cmd α)
    (h : c.setsEmission = false) :
    (exec E L s c).material.emission = s.material.emission := by
  by_cases hm : c.isMaterial = false
  · rw [exec_material E L s c hm]
  · cases c with
    | materialfv p v => cases p <;> simp [Cmd.setsEmission] at h <;> rfl
    | materialShininess x => rfl
    | _ => simp [Cmd.isMaterial] at hm

theorem annotate_material (E : CLib α) (L : Limits) (s : GLState α) (t : List (Cmd α))
    (h : ∀ c ∈ t, c.isMaterial = false) :
    ∀ d ∈ annotate E L s t, d.1.material = s.material := by
  induction t generalizing s with
  | nil => simp [annotate]
  | cons c t ih =>
    intro d hd
    simp only [annotate, List.mem_cons] at hd
    rcases hd with hd | hd
    · subst hd; rfl
    · rw [ih _ (fun c hc => h c (List.mem_cons_of_mem _ hc)) d hd,
        exec_material E L s c (h c (List.mem_cons_self _ _))]

theorem run_emission (E : CLib α) (L : Limits) (s : GLState α) (t : List (Cmd α))
    (h : ∀ c ∈ t, c.setsEmission = false) :
    (run E L s t).material.emission = s.material.emission := by
  induction t generalizing s with
  | nil => rfl
  | cons c t ih =>
    rw [run_cons, ih _ (fun c hc => h c (List.mem_cons_of_mem _ hc)),
      exec_emission E L s c (h c (List.mem_cons_self _ _))]

theorem annotate_emission (E : CLib α) (L : Limits) (s : GLState α) (t : List (Cmd α))
    (h : ∀ c ∈ t, c.setsEmission = false) :
    ∀ d ∈ annotate E L s t, d.1.material.emission = s.material.emission := by
  induction t generalizing s with
  | nil => simp [annotate]
  | cons c t ih =>
    intro d hd
    simp only [annotate, List.mem_cons] at hd
    rcases hd with hd | hd
    · subst hd; rfl
    · rw [ih _ (fun c hc => h c (List.mem_cons_of_mem _ hc)) d hd,
        exec_emission E L s c (h c (List.mem_cons_self _ _))]

end Traces

set_option linter.unusedSectionVars false

section Frames

variable {α : Type} [Field α] [DecidableEq α]

theorem mem_annotate_of_mem (E : CLib α) (L : Limits) (s : GLState α) (t : List (Cmd α))
    (c : Cmd α) (h : c ∈ t) : ∃ st, (st, c) ∈ annotate E L s t := by
  induction t generalizing s with
  | nil => simp at h
  | cons a t ih =>
    rcases List.mem_cons.mp h with h | h
    · subst h; exact ⟨s, by simp [annotate]⟩
    · obtain ⟨st, hst⟩ := ih (exec E L s a) h
      exact ⟨st, by simp [annotate, hst]⟩

theorem frameUpToPlanet_succ (E : CLib α) (tex : Textures) (T : α) (i : Nat) :
    frameUpToPlanet E tex T (i + 1)
      = frameUpToPlanet E tex T i ++ drawOrbitAndPlanet E tex T i := by
  simp [frameUpToPlanet, List.range_succ, List.flatMap_append]

theorem frame_eq (E : CLib α) (tex : Textures) (T : α) (rnd : Nat → Nat) :
    frame E tex T rnd
      = frameUpToPlanet E tex T 8 ++ drawAsteroidBelt E 9 11 500 tex.asteroidTexture rnd := rfl

/-- Every annotated command issued before iteration `n` lies in the part before the
planets or in one iteration of the planet loop, run from the state at the
start of that iteration. -/
theorem mem_annotate_frameUpToPlanet (E : CLib α) (L : Limits) (tex : Textures) (T : α)
    (s : GLState α) (n : Nat) (d : GLState α × Cmd α)
    (h : d ∈ annotate E L s (frameUpToPlanet E tex T n)) :
    d ∈ annotate E L s (frameUpToPlanet E tex T 0)
      ∨ ∃ j, j < n ∧ d ∈ annotate E L (run E L s (frameUpToPlanet E tex T j))
                          (drawOrbitAndPlanet E tex T j) := by
  induction n with
  | zero => exact Or.inl h
  | succ n ih =>
    rw [frameUpToPlanet_succ, annotate_append, List.mem_append] at h
    rcases h with h | h
    · rcases ih h with h | ⟨j, hj, h⟩
      · exact Or.inl h
      · exact Or.inr ⟨j, Nat.lt_succ_of_lt hj, h⟩
    · exact Or.inr ⟨n, Nat.lt_succ_self n, h⟩

theorem mem_annotate_frame (E : CLib α) (L : Limits) (tex : Textures) (T : α)
    (rnd : Nat → Nat) (s : GLState α) (d : GLState α × Cmd α)
    (h : d ∈ annotate E L s (frame E tex T rnd)) :
    d ∈ annotate E L s (frameUpToPlanet E tex T 0)
      ∨ (∃ j, j < 8 ∧ d ∈ annotate E L (run E L s (frameUpToPlanet E tex T j))
                          (drawOrbitAndPlanet E tex T j))
      ∨ d ∈ annotate E L (run E L s (frameUpToPlanet E tex T 8))
              (drawAsteroidBelt E 9 11 500 tex.asteroidTexture rnd) := by
  rw [frame_eq, annotate_append, List.mem_append] at h
  rcases h with h | h
  · rcases mem_annotate_frameUpToPlanet E L tex T s 8 d h with h | h
    · exact Or.inl h
    · exact Or.inr (Or.inl h)
  · exact Or.inr (Or.inr h)

/-! ### What the parts of a frame contain -/

theorem bindPlanetTexture_mem (tex : Textures) (i : Nat) (c : Cmd α)
    (h : c ∈ (bindPlanetTexture tex i : List (Cmd α))) : ∃ t, c = Cmd.bindTexture t := by
  unfold bindPlanetTexture at h
  split at h <;> simp at h <;> exact ⟨_, h⟩

theorem drawOrbitAndPlanet_eq (E : CLib α) (tex : Textures) (T : α) (i : Nat) :
    drawOrbitAndPlanet E tex T i
      = planetHead E tex T i
          ++ Cmd.sphere (Body.planet i) (0.5 + 0.1 * (i : α)) 32 32 :: planetTail E tex T i := by
  simp [drawOrbitAndPlanet, drawPlanetAt, planetHead, planetTail]

theorem planetHead_mem (E : CLib α) (tex : Textures) (T : α) (i : Nat) (c : Cmd α)
    (h : c ∈ planetHead E tex T i) :
    c.isMaterial = false ∧ c.isSphere = false := by
  simp only [planetHead, drawOrbit, List.mem_append, List.mem_cons, List.mem_singleton,
    List.mem_map, List.not_mem_nil, or_false] at h
  rcases h with ((h | h) | h) | h
  · rcases h with h | h <;> subst h <;> simp [Cmd.isMaterial, Cmd.isSphere]
  · rcases h with (h | ⟨k, -, h⟩) | h <;> subst h <;> simp [Cmd.isMaterial, Cmd.isSphere]
  · rcases h with h | h | h | h | h | h <;> subst h <;> simp [Cmd.isMaterial, Cmd.isSphere]
  · obtain ⟨t, ht⟩ := bindPlanetTexture_mem tex i c h
    subst ht; simp [Cmd.isMaterial, Cmd.isSphere]

end Frames

section Uniqueness

variable {α : Type} [Field α] [DecidableEq α]

/-- In a trace `a ++ c :: b` where only `c` satisfies `p`, the one annotated
command satisfying `p` is `c`, in the state after `a`. -/
theorem annotate_unique (E : CLib α) (L : Limits) (s : GLState α) (a b : List (Cmd α))
    (c : Cmd α) (p : Cmd α → Bool) (ha : ∀ x ∈ a, p x = false) (hb : ∀ x ∈ b, p x = false)
    (d : GLState α × Cmd α) (hd : d ∈ annotate E L s (a ++ c :: b)) (hp : p d.2 = true) :
    d = (run E L s a, c) := by
  rw [annotate_append, List.mem_append] at hd
  rcases hd with hd | hd
  · have := ha d.2 (mem_annotate E L s a d hd)
    rw [this] at hp; exact absurd hp (by simp)
  · simp only [annotate, List.mem_cons] at hd
    rcases hd with hd | hd
    · exact hd
    · have := hb d.2 (mem_annotate E L _ b d hd)
      rw [this] at hp; exact absurd hp (by simp)

theorem exec_material_eq (E : CLib α) (L : Limits) (s : GLState α) (c : Cmd α) :
    (exec E L s c).material = execMaterial s.material c := by
  by_cases hm : c.isMaterial = false
  · rw [exec_material E L s c hm]
    cases c <;> first | rfl | simp [Cmd.isMaterial] at hm
  · cases c with
    | materialfv p v => cases p <;> rfl
    | materialShininess x => rfl
    | _ => simp [Cmd.isMaterial] at hm

theorem run_material_eq (E : CLib α) (L : Limits) (s : GLState α) (t : List (Cmd α)) :
    (run E L s t).material = t.foldl execMaterial s.material := by
  induction t generalizing s with
  | nil => rfl
  | cons c t ih => rw [run_cons, ih, exec_material_eq]; rfl

theorem frameUpToPlanet_zero (E : CLib α) (tex : Textures) (T : α) :
    frameUpToPlanet E tex T 0
      = frameUpToSun tex ++ Cmd.sphere Body.sun 1.0 32 32 :: sunTail := by
  simp [frameUpToPlanet, frameUpToSun, sunTail, drawSun]

theorem planetTail_two (E : CLib α) (tex : Textures) (T : α) :
    planetTail E tex T 2
      = moonHead E T ++ Cmd.sphere Body.moon 0.25 16 16 :: [Cmd.popMatrix, Cmd.popMatrix] := by
  simp [planetTail, moonHead, drawMoon]

end Uniqueness

section Spheres

variable {α : Type} [Field α] [DecidableEq α]

theorem annotate_cons (E : CLib α) (L : Limits) (s : GLState α) (c : Cmd α)
    (t : List (Cmd α)) :
    annotate E L s (c :: t) = (s, c) :: annotate E L (exec E L s c) t := rfl

theorem isSphereOf_of_not_isSphere (b : Body) (c : Cmd α) (h : c.isSphere = false) :
    c.isSphereOf b = false := by
  cases c <;> simp [Cmd.isSphere] at h <;> rfl

theorem frameUpToSun_mem (tex : Textures) (c : Cmd α) (h : c ∈ (frameUpToSun tex : List (Cmd α))) :
    c.isSphere = false := by
  revert c
  simp [frameUpToSun, drawBackground, setupView, setMaterialColor, setEmissiveColor, Cmd.isSphere]

theorem sunTail_mem (c : Cmd α) (h : c ∈ (sunTail : List (Cmd α))) :
    c.isSphere = false ∧ c.isDraw = false := by
  revert c
  simp [sunTail, setEmissiveColor, Cmd.isSphere, Cmd.isDraw]

theorem moonHead_mem (E : CLib α) (T : α) (c : Cmd α) (h : c ∈ moonHead E T) :
    c.isSphere = false := by
  revert c
  simp [moonHead, setMaterialColor, Cmd.isSphere]

theorem drawTexturedRing_mem (E : CLib α) (a b : α) (n : Int) (t : Nat) (c : Cmd α)
    (h : c ∈ drawTexturedRing E a b n t) :
    c.isSphere = false ∧ c.isMaterial = false ∧ c.isMatrix = false := by
  revert c
  simp only [drawTexturedRing, List.mem_append, List.mem_cons, List.mem_flatMap, List.mem_range,
    List.mem_singleton, List.not_mem_nil, or_false]
  rintro c (((h | h | h) | ⟨k, -, h | h | h | h⟩) | h | h) <;> subst h <;>
    simp [Cmd.isSphere, Cmd.isMaterial, Cmd.isMatrix]

theorem planetTail_mem (E : CLib α) (tex : Textures) (T : α) (i : Nat) (hi : i ≠ 2)
    (c : Cmd α) (h : c ∈ planetTail E tex T i) :
    c.isSphere = false ∧ c.isMaterial = false := by
  simp only [planetTail, hi, if_false, List.append_nil, List.mem_append, List.mem_singleton] at h
  rcases h with (h | h) | h
  · subst h; simp [Cmd.isSphere, Cmd.isMaterial]
  · split at h
    · simp only [List.mem_append, List.mem_singleton] at h
      rcases h with (h | h) | h
      · subst h; simp [Cmd.isSphere, Cmd.isMaterial]
      · exact ⟨(drawTexturedRing_mem E _ _ _ _ c h).1, (drawTexturedRing_mem E _ _ _ _ c h).2.1⟩
      · subst h; simp [Cmd.isSphere, Cmd.isMaterial]
    · simp at h
  · subst h; simp [Cmd.isSphere, Cmd.isMaterial]

theorem drawAsteroidBelt_mem (E : CLib α) (a b : α) (N : Int) (t : Nat) (rnd : Nat → Nat)
    (c : Cmd α) (h : c ∈ drawAsteroidBelt E a b N t rnd) :
    c.setsEmission = false ∧ c.isSphereOf Body.sun = false ∧ c.isSphereOf Body.moon = false
      ∧ ∀ i, c.isSphereOf (Body.planet i) = false := by
  simp only [drawAsteroidBelt, drawAsteroid, setMaterialColor, List.mem_flatMap, List.mem_range,
    List.mem_append, List.mem_cons, List.mem_singleton, List.not_mem_nil, or_false] at h
  obtain ⟨k, -, h⟩ := h
  rcases h with ((h | h) | h | h | h | h) | h | h | h | h | h <;> subst h <;>
    simp [Cmd.setsEmission, Cmd.isSphereOf]

/-- Every `gluSphere` call of a frame, with the state it is issued in: the
sun's, a planet's, the moon's, or one of the belt. -/
theorem sphere_state (E : CLib α) (L : Limits) (tex : Textures) (T : α) (rnd : Nat → Nat)
    (s : GLState α) (d : GLState α × Cmd α) (hd : d ∈ annotate E L s (frame E tex T rnd))
    (hs : d.2.isSphere = true) :
    d = (run E L s (frameUpToSun tex), Cmd.sphere Body.sun 1.0 32 32)
      ∨ (∃ j, j < 8 ∧
          d = (run E L s (frameUpToPlanet E tex T j ++ planetHead E tex T j),
                Cmd.sphere (Body.planet j) (0.5 + 0.1 * (j : α)) 32 32))
      ∨ d = (run E L s (frameUpToPlanet E tex T 2 ++ planetHead E tex T 2
                  ++ Cmd.sphere (Body.planet 2) (0.5 + 0.1 * ((2 : Nat) : α)) 32 32
                      :: moonHead E T),
              Cmd.sphere Body.moon 0.25 16 16)
      ∨ d ∈ annotate E L (run E L s (frameUpToPlanet E tex T 8))
              (drawAsteroidBelt E 9 11 500 tex.asteroidTexture rnd) := by
  rcases mem_annotate_frame E L tex T rnd s d hd with h | ⟨j, hj, h⟩ | h
  · left
    rw [frameUpToPlanet_zero] at h
    exact annotate_unique E L s _ _ _ Cmd.isSphere (frameUpToSun_mem tex)
      (fun x hx => (sunTail_mem x hx).1) d h hs
  · rw [drawOrbitAndPlanet_eq] at h
    by_cases hj2 : j = 2
    · subst hj2
      rw [annotate_append, List.mem_append] at h
      rcases h with h | h
      · have := (planetHead_mem E tex T 2 d.2 (mem_annotate E L _ _ d h)).2
        rw [this] at hs; exact absurd hs (by simp)
      · rw [annotate_cons, List.mem_cons] at h
        rcases h with h | h
        · right; left
          exact ⟨2, by decide, by rw [h, run_append]⟩
        · right; right; left
          rw [planetTail_two] at h
          have := annotate_unique E L _ _ _ _ Cmd.isSphere (moonHead_mem E T)
            (by simp [Cmd.isSphere]) d h hs
          rw [this]
          simp [run_append]
    · right; left
      refine ⟨j, hj, ?_⟩
      have := annotate_unique E L _ _ _ _ Cmd.isSphere
        (fun x hx => (planetHead_mem E tex T j x hx).2)
        (fun x hx => (planetTail_mem E tex T j hj2 x hx).1) d h hs
      rw [this, run_append]
  · right; right; right; exact h

end Spheres

section Materials

variable {α : Type} [Field α] [DecidableEq α]

theorem foldl_execMaterial_of_not (t : List (Cmd α)) (m : Material α)
    (h : ∀ c ∈ t, c.isMaterial = false) : t.foldl execMaterial m = m := by
  induction t generalizing m with
  | nil => rfl
  | cons c t ih =>
    have hc := h c (List.mem_cons_self _ _)
    have : execMaterial m c = m := by
      cases c <;> first | rfl | simp [Cmd.isMaterial] at hc
    rw [List.foldl_cons, this, ih m (fun c hc => h c (List.mem_cons_of_mem _ hc))]

theorem material_frameUpToPlanet_zero (E : CLib α) (tex : Textures) (T : α) (m : Material α) :
    (frameUpToPlanet E tex T 0).foldl execMaterial m
      = { ambient := ![1 * 0.2, 1 * 0.2, 0 * 0.2, 1], diffuse := ![1, 1, 0, 1],
          specular := ![1, 1, 1, 1], emission := ![0, 0, 0, 1], shininess := 100 } := by
  simp [frameUpToPlanet, drawBackground, setupView, drawSun, setMaterialColor, setEmissiveColor,
    execMaterial]

theorem material_iteration (E : CLib α) (tex : Textures) (T : α) (j : Nat) (hj : j ≠ 2)
    (m : Material α) : (drawOrbitAndPlanet E tex T j).foldl execMaterial m = m := by
  apply foldl_execMaterial_of_not
  intro c hc
  rw [drawOrbitAndPlanet_eq, List.mem_append, List.mem_cons] at hc
  rcases hc with hc | hc | hc
  · exact (planetHead_mem E tex T j c hc).1
  · subst hc; rfl
  · exact (planetTail_mem E tex T j hj c hc).2

theorem material_iteration_two (E : CLib α) (tex : Textures) (T : α) (m : Material α) :
    (drawOrbitAndPlanet E tex T 2).foldl execMaterial m
      = { ambient := ![0.8 * 0.2, 0.8 * 0.2, 0.8 * 0.2, 1], diffuse := ![0.8, 0.8, 0.8, 1],
          specular := ![1, 1, 1, 1], emission := m.emission, shininess := 10 } := by
  rw [drawOrbitAndPlanet_eq, List.foldl_append,
    foldl_execMaterial_of_not _ _ (fun c hc => (planetHead_mem E tex T 2 c hc).1), planetTail_two]
  simp [moonHead, setMaterialColor, execMaterial]

/-- The material registers at the start of iteration `j` of the planet loop:
the sun's for the first three iterations, the moon's afterwards. -/
theorem material_frameUpToPlanet (E : CLib α) (tex : Textures) (T : α) (m : Material α)
    (j : Nat) :
    (frameUpToPlanet E tex T j).foldl execMaterial m
      = if j ≤ 2 then
          { ambient := ![1 * 0.2, 1 * 0.2, 0 * 0.2, 1], diffuse := ![1, 1, 0, 1],
            specular := ![1, 1, 1, 1], emission := ![0, 0, 0, 1], shininess := 100 }
        else
          { ambient := ![0.8 * 0.2, 0.8 * 0.2, 0.8 * 0.2, 1], diffuse := ![0.8, 0.8, 0.8, 1],
            specular := ![1, 1, 1, 1], emission := ![0, 0, 0, 1], shininess := 10 } := by
  induction j with
  | zero => simp [material_frameUpToPlanet_zero]
  | succ j ih =>
    rw [frameUpToPlanet_succ, List.foldl_append, ih]
    by_cases h2 : j = 2
    · subst h2; simp [material_iteration_two]
    · rw [material_iteration E tex T j h2]
      by_cases h : j ≤ 2
      · have : j + 1 ≤ 2 := by omega
        simp [h, this]
      · have : ¬ j + 1 ≤ 2 := by omega
        simp [h, this]

theorem material_at_planet_sphere (E : CLib α) (L : Limits) (tex : Textures) (T : α)
    (s : GLState α) (j : Nat) :
    (run E L s (frameUpToPlanet E tex T j ++ planetHead E tex T j)).material
      = if j ≤ 2 then
          { ambient := ![1 * 0.2, 1 * 0.2, 0 * 0.2, 1], diffuse := ![1, 1, 0, 1],
            specular := ![1, 1, 1, 1], emission := ![0, 0, 0, 1], shininess := 100 }
        else
          { ambient := ![0.8 * 0.2, 0.8 * 0.2, 0.8 * 0.2, 1], diffuse := ![0.8, 0.8, 0.8, 1],
            specular := ![1, 1, 1, 1], emission := ![0, 0, 0, 1], shininess := 10 } := by
  rw [run_material_eq, List.foldl_append, material_frameUpToPlanet,
    foldl_execMaterial_of_not _ _ (fun c hc => (planetHead_mem E tex T j c hc).1)]

theorem mem_statesAt (E : CLib α) (L : Limits) (b : Body) (s st : GLState α)
    (t : List (Cmd α)) :
    st ∈ statesAt E L b s t ↔ ∃ c, (st, c) ∈ annotate E L s t ∧ c.isSphereOf b = true := by
  simp [statesAt]

theorem isSphere_of_isSphereOf (b : Body) (c : Cmd α) (h : c.isSphereOf b = true) :
    c.isSphere = true := by
  cases c <;> first | rfl | simp [Cmd.isSphereOf] at h

/-- The state in which planet `i` is drawn. -/
theorem planet_sphere_state (E : CLib α) (L : Limits) (tex : Textures) (T : α)
    (rnd : Nat → Nat) (s st : GLState α) (i : Nat)
    (h : st ∈ statesAt E L (Body.planet i) s (frame E tex T rnd)) :
    i < 8 ∧ st = run E L s (frameUpToPlanet E tex T i ++ planetHead E tex T i) := by
  obtain ⟨c, hd, hc⟩ := (mem_statesAt E L _ s st _).mp h
  rcases sphere_state E L tex T rnd s (st, c) hd (isSphere_of_isSphereOf _ c hc)
    with hq | ⟨j, hj, hq⟩ | hq | hq
  · simp only [Prod.mk.injEq] at hq
    rw [hq.2] at hc; simp [Cmd.isSphereOf] at hc
  · simp only [Prod.mk.injEq] at hq
    rw [hq.2] at hc
    simp only [Cmd.isSphereOf, decide_eq_true_eq, Body.planet.injEq] at hc
    subst hc
    exact ⟨hj, hq.1⟩
  · simp only [Prod.mk.injEq] at hq
    rw [hq.2] at hc; simp [Cmd.isSphereOf] at hc
  · have hno := (drawAsteroidBelt_mem E _ _ _ _ _ c (mem_annotate E L _ _ _ hq)).2.2.2 i
    rw [hno] at hc; exact absurd hc (by simp)

theorem planet_sphere_mem (E : CLib α) (tex : Textures) (T : α) (rnd : Nat → Nat) (i : Nat)
    (hi : i < 8) :
    Cmd.sphere (Body.planet i) (0.5 + 0.1 * (i : α)) 32 32 ∈ frame E tex T rnd := by
  rw [frame_eq, List.mem_append]
  left
  simp only [frameUpToPlanet, List.mem_append, List.mem_flatMap, List.mem_range]
  right
  exact ⟨i, hi, by rw [drawOrbitAndPlanet_eq]; simp⟩

theorem planet_sphere_drawn (E : CLib α) (L : Limits) (tex : Textures) (T : α)
    (rnd : Nat → Nat) (s : GLState α) (i : Nat) (hi : i < 8) :
    ∃ st, st ∈ statesAt E L (Body.planet i) s (frame E tex T rnd) := by
  obtain ⟨st, hst⟩ := mem_annotate_of_mem E L s _ _ (planet_sphere_mem E tex T rnd i hi)
  exact ⟨st, (mem_statesAt E L _ s st _).mpr ⟨_, hst, by simp [Cmd.isSphereOf]⟩⟩

end Materials

theorem no_material_in_iteration (E : CLib ℝ) (tex : Textures) (T : ℝ) (j : Nat) (hj : j ≠ 2)
    (c : Cmd ℝ) (hc : c ∈ drawOrbitAndPlanet E tex T j) : c.isMaterial = false := by
  rw [drawOrbitAndPlanet_eq, List.mem_append, List.mem_cons] at hc
  rcases hc with hc | hc | hc
  · exact (planetHead_mem E tex T j c hc).1
  · subst hc; rfl
  · exact (planetTail_mem E tex T j hj c hc).2

section Emission

variable {α : Type} [Field α] [DecidableEq α]

theorem setsEmission_of_not_isMaterial (c : Cmd α) (h : c.isMaterial = false) :
    c.setsEmission = false := by
  cases c with
  | materialfv p v => simp [Cmd.isMaterial] at h
  | _ => rfl

theorem drawOrbitAndPlanet_mem (E : CLib α) (tex : Textures) (T : α) (j : Nat) (c : Cmd α)
    (hc : c ∈ drawOrbitAndPlanet E tex T j) :
    c.setsEmission = false ∧ c.isSphereOf Body.sun = false := by
  rw [drawOrbitAndPlanet_eq, List.mem_append, List.mem_cons] at hc
  rcases hc with hc | hc | hc
  · exact ⟨setsEmission_of_not_isMaterial c (planetHead_mem E tex T j c hc).1,
      isSphereOf_of_not_isSphere _ c (planetHead_mem E tex T j c hc).2⟩
  · subst hc; simp [Cmd.setsEmission, Cmd.isSphereOf]
  · by_cases hj : j = 2
    · subst hj
      rw [planetTail_two] at hc
      revert c
      simp [moonHead, setMaterialColor, Cmd.setsEmission, Cmd.isSphereOf]
    · exact ⟨setsEmission_of_not_isMaterial c (planetTail_mem E tex T j hj c hc).2,
        isSphereOf_of_not_isSphere _ c (planetTail_mem E tex T j hj c hc).1⟩

/-- The commands of a frame issued after the sun's draw sequence: the
planet loop and the belt. -/
theorem afterSun_mem (E : CLib α) (tex : Textures) (T : α) (rnd : Nat → Nat) (c : Cmd α)
    (hc : c ∈ (List.range 8).flatMap (drawOrbitAndPlanet E tex T)
            ++ drawAsteroidBelt E 9 11 500 tex.asteroidTexture rnd) :
    c.setsEmission = false ∧ c.isSphereOf Body.sun = false := by
  rw [List.mem_append, List.mem_flatMap] at hc
  rcases hc with ⟨j, -, hc⟩ | hc
  · exact drawOrbitAndPlanet_mem E tex T j c hc
  · exact ⟨(drawAsteroidBelt_mem E _ _ _ _ _ c hc).1, (drawAsteroidBelt_mem E _ _ _ _ _ c hc).2.1⟩

theorem frame_split (E : CLib α) (tex : Textures) (T : α) (rnd : Nat → Nat) :
    frame E tex T rnd
      = frameUpToSun tex
          ++ Cmd.sphere Body.sun 1.0 32 32
              :: (sunTail ++ ((List.range 8).flatMap (drawOrbitAndPlanet E tex T)
                    ++ drawAsteroidBelt E 9 11 500 tex.asteroidTexture rnd)) := by
  simp [frame, frameUpToSun, sunTail, drawSun]

theorem frameUpToSun_draw (E : CLib α) (L : Limits) (tex : Textures) (s : GLState α)
    (d : GLState α × Cmd α) (hd : d ∈ annotate E L s (frameUpToSun tex))
    (hdraw : d.2.isDraw = true) : d.1.material.emission = s.material.emission := by
  have hsplit : (frameUpToSun tex : List (Cmd α))
      = ([Cmd.clear] ++ drawBackground tex.backgroundTexture ++ setupView
            ++ [Cmd.pushMatrix, Cmd.translatef 0 0 0, Cmd.rotatef 90 1 0 0]
            ++ setMaterialColor 1 1 0 100)
          ++ [Cmd.materialfv MaterialParam.emission ![0.5, 0.5, 0, 1],
              Cmd.enable Cap.texture2D, Cmd.bindTexture tex.sunTexture] := by
    simp [frameUpToSun, setEmissiveColor]
  rw [hsplit, annotate_append, List.mem_append] at hd
  rcases hd with hd | hd
  · refine annotate_emission E L s _ ?_ d hd
    simp [drawBackground, setupView, setMaterialColor, Cmd.setsEmission]
  · have := mem_annotate E L _ _ d hd
    revert this hdraw
    generalize d.2 = c
    intro h1 h2
    simp only [List.mem_cons, List.mem_singleton, List.not_mem_nil, or_false] at h2
    rcases h2 with h | h | h <;> subst h <;> simp [Cmd.isDraw] at h1

theorem emission_at_sun (E : CLib α) (L : Limits) (tex : Textures) (s : GLState α) :
    (run E L s (frameUpToSun tex)).material.emission = ![0.5, 0.5, 0, 1] := by
  rw [run_material_eq]
  simp [frameUpToSun, drawBackground, setupView, setMaterialColor, setEmissiveColor, execMaterial]

theorem emission_after_sunTail (E : CLib α) (L : Limits) (s : GLState α) :
    (run E L s sunTail).material.emission = ![0, 0, 0, 1] := by
  rw [run_material_eq]
  simp [sunTail, setEmissiveColor, execMaterial]

/-- The geometry of one frame, split at the sun's sphere. -/
theorem frame_draws (E : CLib α) (L : Limits) (tex : Textures) (T : α) (rnd : Nat → Nat)
    (s : GLState α) :
    ∃ B G, draws E L s (frame E tex T rnd) = B ++ G
      ∧ (∀ d ∈ B, d.2.isSphereOf Body.sun = false
            ∧ d.1.material.emission = s.material.emission)
      ∧ (∀ d ∈ G, (d.2.isSphereOf Body.sun = true → d.1.material.emission = ![0.5, 0.5, 0, 1])
            ∧ (d.2.isSphereOf Body.sun = false → d.1.material.emission = ![0, 0, 0, 1]))
      ∧ (∃ d ∈ G, d.2.isSphereOf Body.sun = true)
      ∧ (run E L s (frame E tex T rnd)).material.emission = ![0, 0, 0, 1] := by
  refine ⟨draws E L s (frameUpToSun tex),
    draws E L (run E L s (frameUpToSun tex))
      (Cmd.sphere Body.sun 1.0 32 32
        :: (sunTail ++ ((List.range 8).flatMap (drawOrbitAndPlanet E tex T)
              ++ drawAsteroidBelt E 9 11 500 tex.asteroidTexture rnd))), ?_, ?_, ?_, ?_, ?_⟩
  · rw [frame_split, draws_append]
  · intro d hd
    simp only [draws, List.mem_filter] at hd
    exact ⟨isSphereOf_of_not_isSphere _ _
        (frameUpToSun_mem tex d.2 (mem_annotate E L s _ d hd.1)),
      frameUpToSun_draw E L tex s d hd.1 hd.2⟩
  · intro d hd
    simp only [draws, List.mem_filter] at hd
    obtain ⟨hd, hdraw⟩ := hd
    rw [annotate_cons, List.mem_cons] at hd
    rcases hd with hd | hd
    · subst hd
      exact ⟨fun _ => emission_at_sun E L tex s, fun h => by simp [Cmd.isSphereOf] at h⟩
    · rw [annotate_append, List.mem_append] at hd
      rcases hd with hd | hd
      · have := (sunTail_mem d.2 (mem_annotate E L _ _ d hd)).2
        rw [this] at hdraw; exact absurd hdraw (by simp)
      · have hmem := afterSun_mem E tex T rnd d.2 (mem_annotate E L _ _ d hd)
        refine ⟨fun h => by rw [hmem.2] at h; exact absurd h (by simp), fun _ => ?_⟩
        rw [annotate_emission E L _ _ (fun c hc => (afterSun_mem E tex T rnd c hc).1) d hd]
        exact emission_after_sunTail E L _
  · refine ⟨(run E L s (frameUpToSun tex), Cmd.sphere Body.sun 1.0 32 32), ?_, ?_⟩
    · simp [draws, annotate_cons, Cmd.isDraw]
    · simp [Cmd.isSphereOf]
  · rw [frame_split, run_append, run_cons, run_append,
      run_emission E L _ _ (fun c hc => (afterSun_mem E tex T rnd c hc).1)]
    exact emission_after_sunTail E L _

theorem mainLoop_cons (E : CLib α) (tex : Textures) (rnd : Nat → Nat) (c : Clock α) (n : Nat)
    (t : α) (ts : List α) :
    mainLoop E tex rnd c n (t :: ts)
      = frame E tex (c.tick t).elapsedTime (fun k => rnd (n + k))
          ++ mainLoop E tex rnd (c.tick t) (n + 1000) ts := rfl

/-- From a state with zero emission every draw of the main loop is a sun
sphere with the sun's emission or another draw with zero emission. -/
theorem mainLoop_draws_emission (E : CLib α) (L : Limits) (tex : Textures) (rnd : Nat → Nat)
    (ts : List α) :
    ∀ (c : Clock α) (n : Nat) (s : GLState α), s.material.emission = ![0, 0, 0, 1] →
      ∀ d ∈ draws E L s (mainLoop E tex rnd c n ts),
        (d.2.isSphereOf Body.sun = true → d.1.material.emission = ![0.5, 0.5, 0, 1])
          ∧ (d.2.isSphereOf Body.sun = false → d.1.material.emission = ![0, 0, 0, 1]) := by
  induction ts with
  | nil => intro c n s _ d hd; simp [mainLoop, draws, annotate] at hd
  | cons t ts ih =>
    intro c n s hs d hd
    rw [mainLoop_cons, draws_append, List.mem_append] at hd
    obtain ⟨B, G, hBG, hB, hG, -, hend⟩ :=
      frame_draws E L tex (c.tick t).elapsedTime (fun k => rnd (n + k)) s
    rcases hd with hd | hd
    · rw [hBG, List.mem_append] at hd
      rcases hd with hd | hd
      · obtain ⟨h1, h2⟩ := hB d hd
        exact ⟨fun h => by rw [h1] at h; exact absurd h (by simp), fun _ => by rw [h2, hs]⟩
      · exact hG d hd
    · exact ih _ _ _ hend d hd

end Emission

/-- C5. In the command trace of the main loop, started in any GL state and
for any clock readings and `rand()` results, every sun sphere is drawn with
emission (0.5, 0.5, 0), and every other draw that follows a sun sphere
(planet spheres, ring, moon, asteroids, background and orbit lines of later
frames) is issued with the emission register at (0, 0, 0); each frame draws
a sun sphere. -/
theorem emission_reset_after_sun (R : Nat) (L : Limits) (tex : Textures) (rnd : Nat → Nat)
    (c : Clock ℝ) (n : Nat) (ts : List ℝ) (s : GLState ℝ) :
    (∀ pre d post,
        draws (realLib R) L s (mainLoop (realLib R) tex rnd c n ts) = pre ++ d :: post →
          (d.2.isSphereOf Body.sun = true → d.1.material.emission = ![0.5, 0.5, 0, 1])
            ∧ ((∃ e ∈ pre, e.2.isSphereOf Body.sun = true) → d.2.isSphereOf Body.sun = false →
                d.1.material.emission = ![0, 0, 0, 1]))
      ∧ (ts ≠ [] →
          ∃ d ∈ draws (realLib R) L s (mainLoop (realLib R) tex rnd c n ts),
            d.2.isSphereOf Body.sun = true) := by
  cases ts with
  | nil =>
    refine ⟨fun pre d post h => ?_, fun h => absurd rfl h⟩
    simp [mainLoop, draws, annotate] at h
  | cons t ts =>
    obtain ⟨B, G, hBG, hB, hG, hsun, hend⟩ :=
      frame_draws (realLib R) L tex (c.tick t).elapsedTime (fun k => rnd (n + k)) s
    have hrest := mainLoop_draws_emission (realLib R) L tex rnd ts (c.tick t) (n + 1000) _ hend
    have htotal : draws (realLib R) L s (mainLoop (realLib R) tex rnd c n (t :: ts))
        = B ++ (G ++ draws (realLib R) L
            (run (realLib R) L s (frame (realLib R) tex (c.tick t).elapsedTime
              (fun k => rnd (n + k))))
            (mainLoop (realLib R) tex rnd (c.tick t) (n + 1000) ts)) := by
      rw [mainLoop_cons, draws_append, hBG, List.append_assoc]
    have hgood : ∀ d ∈ G ++ draws (realLib R) L
            (run (realLib R) L s (frame (realLib R) tex (c.tick t).elapsedTime
              (fun k => rnd (n + k))))
            (mainLoop (realLib R) tex rnd (c.tick t) (n + 1000) ts),
        (d.2.isSphereOf Body.sun = true → d.1.material.emission = ![0.5, 0.5, 0, 1])
          ∧ (d.2.isSphereOf Body.sun = false → d.1.material.emission = ![0, 0, 0, 1]) := by
      intro d hd
      rcases List.mem_append.mp hd with hd | hd
      · exact hG d hd
      · exact hrest d hd
    refine ⟨fun pre d post h => ⟨fun hsunD => ?_, fun hpre hnot => ?_⟩, fun _ => ?_⟩
    · have hmem : d ∈ B ++ (G ++ draws (realLib R) L
            (run (realLib R) L s (frame (realLib R) tex (c.tick t).elapsedTime
              (fun k => rnd (n + k))))
            (mainLoop (realLib R) tex rnd (c.tick t) (n + 1000) ts)) := by
        rw [← htotal, h]; simp
      rcases List.mem_append.mp hmem with hd | hd
      · rw [(hB d hd).1] at hsunD; exact absurd hsunD (by simp)
      · exact (hgood d hd).1 hsunD
    · rw [htotal] at h
      rcases List.append_eq_append_iff.mp h with ⟨a, -, ha⟩ | ⟨a, ha, -⟩
      · exact (hgood d (by rw [ha]; simp)).2 hnot
      · obtain ⟨e, he, hes⟩ := hpre
        have heB : e ∈ B := by rw [ha]; exact List.mem_append_left _ he
        rw [(hB e heB).1] at hes; exact absurd hes (by simp)
    · obtain ⟨d, hd, hds⟩ := hsun
      exact ⟨d, by rw [htotal]; simp [hd], hds⟩

section Matrices

variable {α : Type} [Field α] [DecidableEq α]

theorem exec_mv (E : CLib α) (L : Limits) (s : GLState α) (c : Cmd α) :
    ((exec E L s c).mode, (exec E L s c).modelview) = execMV E L (s.mode, s.modelview) c := by
  cases c with
  | matrixMode m => rfl
  | pushMatrix =>
    cases hm : s.mode <;>
      simp only [exec, execMV, execModelview, GLState.current, Limits.current, hm] <;>
      split <;> simp_all [GLState.setCurrent, GLState.raise]
  | popMatrix =>
    cases hm : s.mode <;>
      simp only [exec, execMV, execModelview, GLState.current, Limits.current, hm] <;>
      split <;> simp_all [GLState.setCurrent, GLState.raise]
  | ortho l r b t n f =>
    cases hm : s.mode <;>
      simp only [exec, execMV, execModelview, GLState.current, Limits.current, hm] <;>
      split <;> simp_all [GLState.setCurrent, GLState.raise, GLState.mult, GLState.current]
  | perspective a b c d =>
    cases hm : s.mode <;>
      simp only [exec, execMV, execModelview, GLState.current, Limits.current, hm] <;>
      split <;> simp_all [GLState.setCurrent, GLState.raise, GLState.mult, GLState.current]
  | loadIdentity =>
    cases hm : s.mode <;>
      simp [exec, execMV, execModelview, GLState.current, GLState.setCurrent, hm]
  | translatef x y z =>
    cases hm : s.mode <;>
      simp [exec, execMV, execModelview, GLState.current, GLState.setCurrent, GLState.mult, hm]
  | rotatef a x y z =>
    cases hm : s.mode <;>
      simp [exec, execMV, execModelview, GLState.current, GLState.setCurrent, GLState.mult, hm]
  | lookAt a b c d e f g h i =>
    cases hm : s.mode <;>
      simp [exec, execMV, execModelview, GLState.current, GLState.setCurrent, GLState.mult, hm]
  | enable c => cases c <;> cases hm : s.mode <;> simp [exec, execMV, execModelview, GLState.setCap, hm]
  | disable c => cases c <;> cases hm : s.mode <;> simp [exec, execMV, execModelview, GLState.setCap, hm]
  | materialfv p v => cases p <;> cases hm : s.mode <;> simp [exec, execMV, execModelview, hm]
  | lightfv p v => cases p <;> cases hm : s.mode <;> simp [exec, execMV, execModelview, hm]
  | _ => cases hm : s.mode <;> simp [exec, execMV, execModelview, hm]

theorem run_mv (E : CLib α) (L : Limits) (s : GLState α) (t : List (Cmd α)) :
    ((run E L s t).mode, (run E L s t).modelview) = t.foldl (execMV E L) (s.mode, s.modelview) := by
  induction t generalizing s with
  | nil => rfl
  | cons c t ih => rw [run_cons, ih, exec_mv]; rfl

theorem foldl_execMV_of_not (E : CLib α) (L : Limits) (t : List (Cmd α)) (p : MatrixMode × Stack α)
    (h : ∀ c ∈ t, c.isMatrix = false) : t.foldl (execMV E L) p = p := by
  induction t generalizing p with
  | nil => rfl
  | cons c t ih =>
    have hc := h c (List.mem_cons_self _ _)
    have : execMV E L p c = p := by
      cases c <;> first | (simp [Cmd.isMatrix] at hc; done) | simp [execMV, execModelview]
    rw [List.foldl_cons, this, ih p (fun c hc => h c (List.mem_cons_of_mem _ hc))]

end Matrices

section Matrices2

variable {α : Type} [Field α] [DecidableEq α]

theorem execMV_of_not (E : CLib α) (L : Limits) (p : MatrixMode × Stack α) (c : Cmd α)
    (hc : c.isMatrix = false) : execMV E L p c = p := by
  cases c <;> first | (simp [Cmd.isMatrix] at hc; done) | simp [execMV, execModelview]

theorem mv_frameUpToSun (E : CLib α) (L : Limits) (tex : Textures) (m0 : MatrixMode)
    (k : Stack α) (hk : k.depth < L.maxModelview) :
    (frameUpToSun tex).foldl (execMV E L) (m0, k)
      = (MatrixMode.modelview,
          { top := viewMatrix E * translation 0 0 0 * rotation E 90 1 0 0,
            below := viewMatrix E :: k.below }) := by
  have hk2 : k.below.length + 1 < L.maxModelview := hk
  simp [frameUpToSun, drawBackground, setupView, setMaterialColor, setEmissiveColor,
    execMV, execModelview, Stack.push, Stack.pop, Stack.depth, hk2, viewMatrix]

theorem mv_frameUpToPlanet_zero (E : CLib α) (L : Limits) (tex : Textures) (T : α)
    (m0 : MatrixMode) (k : Stack α) (hk : k.depth < L.maxModelview) :
    (frameUpToPlanet E tex T 0).foldl (execMV E L) (m0, k)
      = (MatrixMode.modelview, { top := viewMatrix E, below := k.below }) := by
  rw [frameUpToPlanet_zero, List.foldl_append, mv_frameUpToSun E L tex m0 k hk]
  simp [sunTail, setEmissiveColor, execMV, execModelview, Stack.pop]

theorem drawOrbit_not_matrix (E : CLib α) (r : α) (c : Cmd α) (h : c ∈ drawOrbit E r) :
    c.isMatrix = false := by
  simp only [drawOrbit, List.mem_append, List.mem_singleton, List.mem_map, List.mem_range] at h
  rcases h with (h | ⟨k, -, h⟩) | h <;> subst h <;> rfl

theorem mv_planetHead (E : CLib α) (L : Limits) (tex : Textures) (T : α) (i : Nat)
    (k : Stack α) (hk : k.depth < L.maxModelview) :
    (planetHead E tex T i).foldl (execMV E L) (MatrixMode.modelview, k)
      = (MatrixMode.modelview,
          { top := k.top * planetModel E T i (orbitPosition E i T), below := k.top :: k.below }) := by
  have hk2 : k.below.length + 1 < L.maxModelview := hk
  have hbind : (bindPlanetTexture tex i : List (Cmd α)).foldl (execMV E L)
      (MatrixMode.modelview,
        { top := k.top * planetModel E T i (orbitPosition E i T), below := k.top :: k.below })
      = (MatrixMode.modelview,
        { top := k.top * planetModel E T i (orbitPosition E i T), below := k.top :: k.below }) := by
    apply foldl_execMV_of_not
    intro c hc
    obtain ⟨t, rfl⟩ := bindPlanetTexture_mem tex i c hc
    rfl
  simp only [planetHead, List.foldl_append]
  rw [show ([Cmd.disable Cap.lighting, Cmd.color4f 1 1 1 0.5] : List (Cmd α)).foldl (execMV E L)
        (MatrixMode.modelview, k) = (MatrixMode.modelview, k) from by simp [execMV, execModelview],
    foldl_execMV_of_not E L _ _ (drawOrbit_not_matrix E _)]
  rw [← hbind]
  congr 1
  simp [execMV, execModelview, Stack.push, Stack.depth, hk2, planetModel, Matrix.mul_assoc]

theorem mv_planetTail (E : CLib α) (L : Limits) (tex : Textures) (T : α) (i : Nat)
    (M a : Mat4 α) (rest : List (Mat4 α)) (hk : rest.length + 2 < L.maxModelview) :
    (planetTail E tex T i).foldl (execMV E L) (MatrixMode.modelview, { top := M, below := a :: rest })
      = (MatrixMode.modelview, { top := a, below := rest }) := by
  by_cases h2 : i = 2
  · subst h2
    rw [planetTail_two]
    simp [moonHead, setMaterialColor, execMV, execModelview, Stack.push, Stack.pop, Stack.depth, hk]
  · by_cases h5 : i = 5
    · subst h5
      have hsplit : planetTail E tex T 5
          = [Cmd.disable Cap.texture2D, Cmd.pushMatrix]
              ++ (drawTexturedRing E 1.3 2.1 64 tex.saturnRingTexture
                  ++ [Cmd.popMatrix, Cmd.popMatrix]) := by
        simp [planetTail]
      have hpush : ([Cmd.disable Cap.texture2D, Cmd.pushMatrix] : List (Cmd α)).foldl
            (execMV E L) (MatrixMode.modelview, { top := M, below := a :: rest })
          = (MatrixMode.modelview, { top := M, below := M :: a :: rest }) := by
        simp [execMV, execModelview, Stack.push, Stack.depth, hk]
      rw [hsplit, List.foldl_append, hpush, List.foldl_append,
        foldl_execMV_of_not E L _ _ (fun c hc => (drawTexturedRing_mem E _ _ _ _ c hc).2.2)]
      simp [execMV, execModelview, Stack.pop]
    · simp [planetTail, h2, h5, execMV, execModelview, Stack.pop]

theorem mv_iteration (E : CLib α) (L : Limits) (tex : Textures) (T : α) (i : Nat)
    (k : Stack α) (hk : k.depth + 1 < L.maxModelview) :
    (drawOrbitAndPlanet E tex T i).foldl (execMV E L) (MatrixMode.modelview, k)
      = (MatrixMode.modelview, k) := by
  rw [drawOrbitAndPlanet_eq, List.foldl_append, mv_planetHead E L tex T i k (by omega),
    List.foldl_cons,
    show execMV E L (MatrixMode.modelview,
        ({ top := k.top * planetModel E T i (orbitPosition E i T), below := k.top :: k.below }
          : Stack α))
        (Cmd.sphere (Body.planet i) (0.5 + 0.1 * (i : α)) 32 32)
      = (MatrixMode.modelview,
        { top := k.top * planetModel E T i (orbitPosition E i T), below := k.top :: k.below })
      from execMV_of_not E L _ _ rfl,
    mv_planetTail E L tex T i _ _ _ (by simpa [Stack.depth] using hk)]

/-- At the start of every iteration of the planet loop the matrix mode is
GL_MODELVIEW and the modelview stack holds the camera matrix on top of the
entries it had at the start of the frame. -/
theorem mv_frameUpToPlanet (E : CLib α) (L : Limits) (tex : Textures) (T : α)
    (m0 : MatrixMode) (k : Stack α) (hk : k.depth + 1 < L.maxModelview) (j : Nat) :
    (frameUpToPlanet E tex T j).foldl (execMV E L) (m0, k)
      = (MatrixMode.modelview, { top := viewMatrix E, below := k.below }) := by
  induction j with
  | zero => exact mv_frameUpToPlanet_zero E L tex T m0 k (by omega)
  | succ j ih =>
    rw [frameUpToPlanet_succ, List.foldl_append, ih]
    exact mv_iteration E L tex T j _ (by simpa [Stack.depth] using hk)

end Matrices2

section Geometry

theorem translation_mulVec (x y z a b c w : ℝ) :
    Matrix.mulVec (translation x y z) ![a, b, c, w] = ![a + x * w, b + y * w, c + z * w, w] := by
  ext i
  fin_cases i <;> simp [translation, Matrix.mulVec, Matrix.dotProduct, Fin.sum_univ_four]

theorem rotation_x90 (R : Nat) :
    rotation (realLib R) 90 1 0 0 = !![1, 0, 0, 0; 0, 0, -1, 0; 0, 1, 0, 0; 0, 0, 0, 1] := by
  have h : (90 : ℝ) * Real.pi / 180 = Real.pi / 2 := by ring
  simp [rotation, realLib, h]

theorem rotation_y (R : Nat) (a : ℝ) :
    rotation (realLib R) a 0 1 0
      = !![Real.cos (a * Real.pi / 180), 0, Real.sin (a * Real.pi / 180), 0;
           0, 1, 0, 0;
           -Real.sin (a * Real.pi / 180), 0, Real.cos (a * Real.pi / 180), 0;
           0, 0, 0, 1] := by
  simp [rotation, realLib]

theorem rotation_x90_mulVec (R : Nat) (a b c w : ℝ) :
    Matrix.mulVec (rotation (realLib R) 90 1 0 0) ![a, b, c, w] = ![a, -c, b, w] := by
  rw [rotation_x90]
  ext i
  fin_cases i <;> simp [Matrix.mulVec, Matrix.dotProduct, Fin.sum_univ_four]

theorem rotation_y_mulVec (R : Nat) (t a b c w : ℝ) :
    Matrix.mulVec (rotation (realLib R) t 0 1 0) ![a, b, c, w]
      = ![Real.cos (t * Real.pi / 180) * a + Real.sin (t * Real.pi / 180) * c, b,
          -(Real.sin (t * Real.pi / 180) * a) + Real.cos (t * Real.pi / 180) * c, w] := by
  rw [rotation_y]
  ext i
  fin_cases i <;> simp [Matrix.mulVec, Matrix.dotProduct, Fin.sum_univ_four]

theorem sunModel_origin (R : Nat) :
    Matrix.mulVec (sunModel (realLib R)) ![0, 0, 0, 1] = ![0, 0, 0, 1] := by
  rw [sunModel, ← Matrix.mulVec_mulVec, rotation_x90_mulVec, translation_mulVec]
  simp

theorem planetModel_origin (R : Nat) (T : ℝ) (i : Nat) (pos : ℝ × ℝ × ℝ) :
    Matrix.mulVec (planetModel (realLib R) T i pos) ![0, 0, 0, 1]
      = ![pos.1, pos.2.1, pos.2.2, 1] := by
  rw [planetModel, ← Matrix.mulVec_mulVec, ← Matrix.mulVec_mulVec, rotation_y_mulVec,
    rotation_x90_mulVec, translation_mulVec]
  simp

theorem planetModel_mulVec (R : Nat) (T : ℝ) (i : Nat) (pos : ℝ × ℝ × ℝ) (a b c : ℝ) :
    Matrix.mulVec (planetModel (realLib R) T i pos) ![a, b, c, 1]
      = ![pos.1, pos.2.1, pos.2.2, 0]
          + Matrix.mulVec (rotation (realLib R) 90 1 0 0
              * rotation (realLib R) (T * ROTATION_SPEEDS.getD i 0) 0 1 0) ![a, b, c, 1] := by
  rw [planetModel, ← Matrix.mulVec_mulVec, ← Matrix.mulVec_mulVec, ← Matrix.mulVec_mulVec,
    rotation_y_mulVec, rotation_x90_mulVec, translation_mulVec]
  ext j
  fin_cases j <;> simp <;> ring_nf

theorem moonModel_origin (R : Nat) (T : ℝ) (pos : ℝ × ℝ × ℝ) :
    Matrix.mulVec (moonModel (realLib R) T pos) ![0, 0, 0, 1]
      = ![pos.1, pos.2.1, pos.2.2, 0]
          + Matrix.mulVec (rotation (realLib R) 90 1 0 0 * rotation (realLib R) (T * 1.0) 0 1 0)
              ![Real.cos (0.2 * T), 0, Real.sin (0.2 * T), 1] := by
  have hx : (MOON_ORBITAL_RADIUS : ℝ) * (realLib R).cos (T * MOON_ORBITAL_SPEED)
      = Real.cos (0.2 * T) := by
    simp only [MOON_ORBITAL_RADIUS, MOON_ORBITAL_SPEED, realLib]
    rw [mul_comm T]
    norm_num
  have hz : (MOON_ORBITAL_RADIUS : ℝ) * (realLib R).sin (T * MOON_ORBITAL_SPEED)
      = Real.sin (0.2 * T) := by
    simp only [MOON_ORBITAL_RADIUS, MOON_ORBITAL_SPEED, realLib]
    rw [mul_comm T]
    norm_num
  have hr : (ROTATION_SPEEDS.getD 2 0 : ℝ) = 1.0 := by simp [ROTATION_SPEEDS]
  rw [moonModel, ← Matrix.mulVec_mulVec, ← Matrix.mulVec_mulVec, rotation_x90_mulVec,
    translation_mulVec, hx, hz]
  simp only [mul_one, zero_add, neg_zero, zero_mul, add_zero]
  rw [planetModel_mulVec, hr]

theorem moonModel_origin_coords (R : Nat) (T : ℝ) (pos : ℝ × ℝ × ℝ) :
    Matrix.mulVec (moonModel (realLib R) T pos) ![0, 0, 0, 1]
      = ![pos.1 + (Real.cos (T * Real.pi / 180) * Real.cos (0.2 * T)
                    + Real.sin (T * Real.pi / 180) * Real.sin (0.2 * T)),
          pos.2.1 + (Real.sin (T * Real.pi / 180) * Real.cos (0.2 * T)
                    - Real.cos (T * Real.pi / 180) * Real.sin (0.2 * T)),
          pos.2.2, 1] := by
  rw [moonModel_origin, ← Matrix.mulVec_mulVec, rotation_y_mulVec, rotation_x90_mulVec]
  ext j
  fin_cases j <;> simp <;> ring_nf

end Geometry

section Tops

variable {α : Type} [Field α] [DecidableEq α]

theorem sun_top (E : CLib α) (L : Limits) (tex : Textures) (s : GLState α)
    (hk : s.modelview.depth < L.maxModelview) :
    (run E L s (frameUpToSun tex)).modelview.top = viewMatrix E * sunModel E := by
  have h := congrArg (fun p => p.2.top) (run_mv E L s (frameUpToSun tex))
  simp only [mv_frameUpToSun E L tex s.mode s.modelview hk] at h
  rw [h, sunModel, Matrix.mul_assoc]

theorem planet_top (E : CLib α) (L : Limits) (tex : Textures) (T : α) (s : GLState α)
    (hk : s.modelview.depth + 1 < L.maxModelview) (i : Nat) :
    (run E L s (frameUpToPlanet E tex T i ++ planetHead E tex T i)).modelview.top
      = viewMatrix E * planetModel E T i (orbitPosition E i T) := by
  have h := congrArg (fun p => p.2.top)
    (run_mv E L s (frameUpToPlanet E tex T i ++ planetHead E tex T i))
  simp only [List.foldl_append, mv_frameUpToPlanet E L tex T s.mode s.modelview hk i] at h
  rw [mv_planetHead E L tex T i _ (by simpa [Stack.depth] using Nat.lt_of_succ_lt hk)] at h
  exact h

theorem drawPlanetAt_two (E : CLib α) (tex : Textures) (T : α) (pos : α × α × α) :
    drawPlanetAt E tex T 2 pos
      = ([ Cmd.pushMatrix,
           Cmd.translatef pos.1 pos.2.1 pos.2.2,
           Cmd.rotatef 90 1 0 0,
           Cmd.rotatef (T * ROTATION_SPEEDS.getD 2 0) 0 1 0,
           Cmd.enable Cap.texture2D,
           Cmd.bindTexture tex.earthTexture,
           Cmd.sphere (Body.planet 2) (0.5 + 0.1 * ((2 : Nat) : α)) 32 32 ]
          ++ moonHead E T)
        ++ Cmd.sphere Body.moon 0.25 16 16 :: [Cmd.popMatrix, Cmd.popMatrix] := by
  simp [drawPlanetAt, bindPlanetTexture, drawMoon, moonHead]

/-- The modelview matrix at the moon's sphere, for Earth's scope entered at
any position from any state in modelview mode with room for two pushes. -/
theorem moon_top_in_scope (E : CLib α) (L : Limits) (tex : Textures) (T : α)
    (pos : α × α × α) (s st : GLState α) (hmode : s.mode = MatrixMode.modelview)
    (hk : s.modelview.depth + 1 < L.maxModelview)
    (hst : st ∈ statesAt E L Body.moon s (drawPlanetAt E tex T 2 pos)) :
    st.modelview.top = s.modelview.top * moonModel E T pos := by
  obtain ⟨c, hd, hc⟩ := (mem_statesAt E L _ s st _).mp hst
  rw [drawPlanetAt_two] at hd
  have hq := annotate_unique E L s _ _ _ (Cmd.isSphereOf Body.moon)
    (by simp [moonHead, setMaterialColor, Cmd.isSphereOf]) (by simp [Cmd.isSphereOf])
    (st, c) hd hc
  simp only [Prod.mk.injEq] at hq
  rw [hq.1]
  have h := congrArg (fun p => p.2.top) (run_mv E L s
    ([ Cmd.pushMatrix,
       Cmd.translatef pos.1 pos.2.1 pos.2.2,
       Cmd.rotatef 90 1 0 0,
       Cmd.rotatef (T * ROTATION_SPEEDS.getD 2 0) 0 1 0,
       Cmd.enable Cap.texture2D,
       Cmd.bindTexture tex.earthTexture,
       Cmd.sphere (Body.planet 2) (0.5 + 0.1 * ((2 : Nat) : α)) 32 32 ]
      ++ moonHead E T))
  have hk1 : s.modelview.below.length + 1 < L.maxModelview := by
    have := hk; simp only [Stack.depth] at this; omega
  have hk2 : s.modelview.below.length + 1 + 1 < L.maxModelview := hk
  simp only [hmode] at h
  rw [h]
  simp [moonHead, setMaterialColor, execMV, execModelview, Stack.push, Stack.depth, hk1, hk2,
    moonModel, planetModel, Matrix.mul_assoc]

theorem moon_top (E : CLib α) (L : Limits) (tex : Textures) (T : α) (s : GLState α)
    (hk : s.modelview.depth + 1 < L.maxModelview) :
    (run E L s (frameUpToPlanet E tex T 2 ++ planetHead E tex T 2
        ++ Cmd.sphere (Body.planet 2) (0.5 + 0.1 * ((2 : Nat) : α)) 32 32 :: moonHead E T)
      ).modelview.top
      = viewMatrix E * moonModel E T (orbitPosition E 2 T) := by
  have hk2 : s.modelview.below.length + 1 + 1 < L.maxModelview := hk
  have h := run_mv E L s (frameUpToPlanet E tex T 2 ++ planetHead E tex T 2
        ++ Cmd.sphere (Body.planet 2) (0.5 + 0.1 * ((2 : Nat) : α)) 32 32 :: moonHead E T)
  rw [List.foldl_append, List.foldl_append, mv_frameUpToPlanet E L tex T s.mode s.modelview hk 2,
    mv_planetHead E L tex T 2 _ (by simpa [Stack.depth] using Nat.lt_of_succ_lt hk)] at h
  have h2 := congrArg (fun p => p.2.top) h
  simp only at h2
  rw [h2]
  simp [moonHead, setMaterialColor, execMV, execModelview, Stack.push, Stack.depth, hk2,
    moonModel, Matrix.mul_assoc]

/-- The state in which the moon is drawn. -/
theorem moon_sphere_state (E : CLib α) (L : Limits) (tex : Textures) (T : α)
    (rnd : Nat → Nat) (s st : GLState α)
    (h : st ∈ statesAt E L Body.moon s (frame E tex T rnd)) :
    st = run E L s (frameUpToPlanet E tex T 2 ++ planetHead E tex T 2
          ++ Cmd.sphere (Body.planet 2) (0.5 + 0.1 * ((2 : Nat) : α)) 32 32 :: moonHead E T) := by
  obtain ⟨c, hd, hc⟩ := (mem_statesAt E L _ s st _).mp h
  rcases sphere_state E L tex T rnd s (st, c) hd (isSphere_of_isSphereOf _ c hc)
    with hq | ⟨j, hj, hq⟩ | hq | hq
  · simp only [Prod.mk.injEq] at hq
    rw [hq.2] at hc; simp [Cmd.isSphereOf] at hc
  · simp only [Prod.mk.injEq] at hq
    rw [hq.2] at hc; simp [Cmd.isSphereOf] at hc
  · simp only [Prod.mk.injEq] at hq
    exact hq.1
  · have hno := (drawAsteroidBelt_mem E _ _ _ _ _ c (mem_annotate E L _ _ _ hq)).2.2.1
    rw [hno] at hc; exact absurd hc (by simp)

/-- The state in which the sun is drawn. -/
theorem sun_sphere_state (E : CLib α) (L : Limits) (tex : Textures) (T : α)
    (rnd : Nat → Nat) (s st : GLState α)
    (h : st ∈ statesAt E L Body.sun s (frame E tex T rnd)) :
    st = run E L s (frameUpToSun tex) := by
  obtain ⟨c, hd, hc⟩ := (mem_statesAt E L _ s st _).mp h
  rcases sphere_state E L tex T rnd s (st, c) hd (isSphere_of_isSphereOf _ c hc)
    with hq | ⟨j, hj, hq⟩ | hq | hq
  · simp only [Prod.mk.injEq] at hq
    exact hq.1
  · simp only [Prod.mk.injEq] at hq
    rw [hq.2] at hc; simp [Cmd.isSphereOf] at hc
  · simp only [Prod.mk.injEq] at hq
    rw [hq.2] at hc; simp [Cmd.isSphereOf] at hc
  · have hno := (drawAsteroidBelt_mem E _ _ _ _ _ c (mem_annotate E L _ _ _ hq)).2.1
    rw [hno] at hc; exact absurd hc (by simp)

theorem body_sphere_drawn (E : CLib α) (L : Limits) (tex : Textures) (T : α)
    (rnd : Nat → Nat) (s : GLState α) (b : Body) (r : α) (n m : Nat)
    (hmem : Cmd.sphere b r n m ∈ frame E tex T rnd) :
    ∃ st, st ∈ statesAt E L b s (frame E tex T rnd) := by
  obtain ⟨st, hst⟩ := mem_annotate_of_mem E L s _ _ hmem
  exact ⟨st, (mem_statesAt E L _ s st _).mpr ⟨_, hst, by simp [Cmd.isSphereOf]⟩⟩

theorem sun_sphere_mem (E : CLib α) (tex : Textures) (T : α) (rnd : Nat → Nat) :
    Cmd.sphere Body.sun 1.0 32 32 ∈ frame E tex T rnd := by
  rw [frame_split]; simp

theorem moon_sphere_mem (E : CLib α) (tex : Textures) (T : α) (rnd : Nat → Nat) :
    Cmd.sphere Body.moon 0.25 16 16 ∈ frame E tex T rnd := by
  rw [frame_eq, List.mem_append]
  left
  simp only [frameUpToPlanet, List.mem_append, List.mem_flatMap, List.mem_range]
  right
  exact ⟨2, by decide, by rw [drawOrbitAndPlanet_eq, planetTail_two]; simp⟩

end Tops

section Belt

variable {α : Type} [Field α] [DecidableEq α]

theorem mv_drawAsteroid (E : CLib α) (L : Limits) (a b : α) (tex i r1 r2 : Nat) (k : Stack α)
    (hk : k.depth < L.maxModelview) :
    (drawAsteroid E a b tex i r1 r2).foldl (execMV E L) (MatrixMode.modelview, k)
      = (MatrixMode.modelview, k) := by
  have hk2 : k.below.length + 1 < L.maxModelview := hk
  simp [drawAsteroid, setMaterialColor, execMV, execModelview, Stack.push, Stack.pop,
    Stack.depth, hk2]

theorem mv_drawAsteroidBelt (E : CLib α) (L : Limits) (a b : α) (N : Int) (tex : Nat)
    (rnd : Nat → Nat) (k : Stack α) (hk : k.depth < L.maxModelview) :
    (drawAsteroidBelt E a b N tex rnd).foldl (execMV E L) (MatrixMode.modelview, k)
      = (MatrixMode.modelview, k) := by
  unfold drawAsteroidBelt
  induction N.toNat with
  | zero => rfl
  | succ n ih =>
    rw [List.range_succ, List.flatMap_append, List.foldl_append, ih]
    simp only [List.flatMap_singleton]
    exact mv_drawAsteroid E L a b tex n _ _ k hk

theorem mv_frame (E : CLib α) (L : Limits) (tex : Textures) (T : α)
    (rnd : Nat → Nat) (m0 : MatrixMode) (k : Stack α) (hk : k.depth + 1 < L.maxModelview) :
    (frame E tex T rnd).foldl (execMV E L) (m0, k)
      = (MatrixMode.modelview, { top := viewMatrix E, below := k.below }) := by
  have hroom : ({ top := viewMatrix E, below := k.below } : Stack α).depth < L.maxModelview :=
    Nat.lt_of_succ_lt hk
  rw [frame_eq, List.foldl_append, mv_frameUpToPlanet E L tex T m0 k hk 8]
  exact mv_drawAsteroidBelt E L 9 11 500 tex.asteroidTexture rnd _ hroom

theorem modelview_of_foldl (E : CLib α) (L : Limits) (s : GLState α) (t : List (Cmd α))
    (m : MatrixMode) (k : Stack α) (h : t.foldl (execMV E L) (s.mode, s.modelview) = (m, k)) :
    (run E L s t).modelview = k := by
  have h2 := run_mv E L s t
  rw [h] at h2
  exact congrArg Prod.snd h2

/-- A frame leaves the modelview stack with the camera matrix on top of the
entries it had before: its depth is unchanged. -/
theorem frame_modelview_depth (E : CLib α) (L : Limits) (tex : Textures) (T : α)
    (rnd : Nat → Nat) (s : GLState α) (hk : s.modelview.depth + 1 < L.maxModelview) :
    (run E L s (frame E tex T rnd)).modelview.depth = s.modelview.depth := by
  rw [modelview_of_foldl E L s _ _ _ (mv_frame E L tex T rnd s.mode s.modelview hk),
    Stack.depth, Stack.depth]

end Belt

theorem earth_orbitPosition (R : Nat) (T : ℝ) :
    orbitPosition (realLib R) 2 T = (6 * Real.cos (0.06 * T), 0, 6 * Real.sin (0.06 * T)) := by
  simp only [orbitPosition, ORBITAL_SPEEDS, ORBITAL_RADII, realLib, List.getD_cons_succ,
    List.getD_cons_zero, mul_comm T]
  norm_num

theorem orbitPosition_y (E : CLib ℝ) (i : Nat) (T : ℝ) : (orbitPosition E i T).2.1 = 0 := rfl

/-- C2. In a frame started in a state whose modelview stack has room for
two more entries, the moon's sphere is drawn, and the modelview matrix in
effect there is the camera matrix times the model transform
`T(earth) Rx(90) Ry(T 1.0) T(moon) Rx(90)`; that transform maps the local
origin to Earth's orbit position `(6 cos(0.06 T), 0, 6 sin(0.06 T))` plus
`Rx(90) Ry(T 1.0) (cos(0.2 T), 0, sin(0.2 T))`; with Earth's scope entered
at any other position, from any state, the transform is the same with that
position, so moving Earth by `d` moves the moon's position by `d`.  The
frame leaves the depth of the modelview stack unchanged, so the room is
there again in the next frame. -/
theorem moon_nested_in_earth (R : Nat) (L : Limits) (tex : Textures) (T : ℝ)
    (rnd : Nat → Nat) (s : GLState ℝ) (hk : s.modelview.depth + 1 < L.maxModelview) :
    (∃ st, st ∈ statesAt (realLib R) L Body.moon s (frame (realLib R) tex T rnd))
      ∧ (∀ st ∈ statesAt (realLib R) L Body.moon s (frame (realLib R) tex T rnd),
          st.modelview.top
            = viewMatrix (realLib R)
                * moonModel (realLib R) T (orbitPosition (realLib R) 2 T))
      ∧ orbitPosition (realLib R) 2 T
          = (6 * Real.cos (0.06 * T), 0, 6 * Real.sin (0.06 * T))
      ∧ Matrix.mulVec (moonModel (realLib R) T (orbitPosition (realLib R) 2 T)) ![0, 0, 0, 1]
          = ![6 * Real.cos (0.06 * T), 0, 6 * Real.sin (0.06 * T), 0]
              + Matrix.mulVec
                  (rotation (realLib R) 90 1 0 0 * rotation (realLib R) (T * 1.0) 0 1 0)
                  ![Real.cos (0.2 * T), 0, Real.sin (0.2 * T), 1]
      ∧ (∀ pos d : ℝ × ℝ × ℝ,
          Matrix.mulVec (moonModel (realLib R) T (pos + d)) ![0, 0, 0, 1]
            = Matrix.mulVec (moonModel (realLib R) T pos) ![0, 0, 0, 1]
                + ![d.1, d.2.1, d.2.2, 0])
      ∧ (∀ (s1 : GLState ℝ) (pos : ℝ × ℝ × ℝ), s1.mode = MatrixMode.modelview →
          s1.modelview.depth + 1 < L.maxModelview →
          ∀ st ∈ statesAt (realLib R) L Body.moon s1 (drawPlanetAt (realLib R) tex T 2 pos),
            st.modelview.top = s1.modelview.top * moonModel (realLib R) T pos)
      ∧ (run (realLib R) L s (frame (realLib R) tex T rnd)).modelview.depth
          = s.modelview.depth := by
  refine ⟨body_sphere_drawn _ L tex T rnd s _ _ _ _ (moon_sphere_mem _ tex T rnd), ?_,
    earth_orbitPosition R T, ?_, ?_, ?_, frame_modelview_depth _ L tex T rnd s hk⟩
  · intro st hst
    rw [moon_sphere_state _ L tex T rnd s st hst]
    exact moon_top _ L tex T s hk
  · rw [moonModel_origin, earth_orbitPosition]
  · intro pos d
    rw [moonModel_origin_coords, moonModel_origin_coords]
    ext j
    fin_cases j <;> simp <;> ring
  · intro s1 pos hmode hk1 st hst
    exact moon_top_in_scope _ L tex T pos s1 st hmode hk1 hst

/-- Witness of C2: a fresh context with a modelview stack of depth 32, at
elapsed time 0. -/
theorem moon_nested_in_earth_witness :
    (GLState.initial : GLState ℝ).modelview.depth + 1 < (Limits.mk 32 2 2).maxModelview
      ∧ ∃ st, st ∈ statesAt (realLib 32767) (Limits.mk 32 2 2) Body.moon GLState.initial
          (frame (realLib 32767) (Textures.mk 1 2 3 4 5 6 7 8 9 10 11 12) 0 (fun _ => 0)) :=
  ⟨by decide,
    (moon_nested_in_earth 32767 (Limits.mk 32 2 2) (Textures.mk 1 2 3 4 5 6 7 8 9 10 11 12) 0
      (fun _ => 0) GLState.initial (by decide)).1⟩

/-- C8, amended. In a frame started in a state whose modelview stack has
room for two more entries, the sun and each of the eight planets are drawn
under the camera matrix times a model transform that maps the local origin
to a point with `y = 0`; the moon is drawn under a model transform that maps
the origin to a point whose `z` is Earth's and whose `y` is
`sin(T π / 180) cos(0.2 T) - cos(T π / 180) sin(0.2 T)`. -/
theorem bodies_in_orbital_plane (R : Nat) (L : Limits) (tex : Textures) (T : ℝ)
    (rnd : Nat → Nat) (s : GLState ℝ) (hk : s.modelview.depth + 1 < L.maxModelview) :
    ((∃ st, st ∈ statesAt (realLib R) L Body.sun s (frame (realLib R) tex T rnd))
        ∧ (∀ st ∈ statesAt (realLib R) L Body.sun s (frame (realLib R) tex T rnd),
            st.modelview.top = viewMatrix (realLib R) * sunModel (realLib R))
        ∧ Matrix.mulVec (sunModel (realLib R)) ![0, 0, 0, 1] 1 = 0)
      ∧ (∀ i, i < 8 →
          (∃ st, st ∈ statesAt (realLib R) L (Body.planet i) s (frame (realLib R) tex T rnd))
            ∧ (∀ st ∈ statesAt (realLib R) L (Body.planet i) s (frame (realLib R) tex T rnd),
                st.modelview.top
                  = viewMatrix (realLib R)
                      * planetModel (realLib R) T i (orbitPosition (realLib R) i T))
            ∧ Matrix.mulVec (planetModel (realLib R) T i (orbitPosition (realLib R) i T))
                ![0, 0, 0, 1] 1 = 0)
      ∧ ((∀ st ∈ statesAt (realLib R) L Body.moon s (frame (realLib R) tex T rnd),
            st.modelview.top
              = viewMatrix (realLib R)
                  * moonModel (realLib R) T (orbitPosition (realLib R) 2 T))
          ∧ Matrix.mulVec (moonModel (realLib R) T (orbitPosition (realLib R) 2 T))
                ![0, 0, 0, 1] 1
              = Real.sin (T * Real.pi / 180) * Real.cos (0.2 * T)
                  - Real.cos (T * Real.pi / 180) * Real.sin (0.2 * T)
          ∧ Matrix.mulVec (moonModel (realLib R) T (orbitPosition (realLib R) 2 T))
                ![0, 0, 0, 1] 2
              = (orbitPosition (realLib R) 2 T).2.2) := by
  refine ⟨⟨body_sphere_drawn _ L tex T rnd s _ _ _ _ (sun_sphere_mem _ tex T rnd), ?_, ?_⟩,
    fun i hi => ⟨planet_sphere_drawn _ L tex T rnd s i hi, ?_, ?_⟩, ?_, ?_, ?_⟩
  · intro st hst
    rw [sun_sphere_state _ L tex T rnd s st hst]
    exact sun_top _ L tex s (Nat.lt_of_succ_lt hk)
  · rw [sunModel_origin]; rfl
  · intro st hst
    rw [(planet_sphere_state _ L tex T rnd s st i hst).2]
    exact planet_top _ L tex T s hk i
  · rw [planetModel_origin]; rfl
  · intro st hst
    rw [moon_sphere_state _ L tex T rnd s st hst]
    exact moon_top _ L tex T s hk
  · rw [moonModel_origin_coords]
    simp [orbitPosition_y]
  · rw [moonModel_origin_coords]
    rfl

/-- Witness of the amended C8: a fresh context with a modelview stack of
depth 32, at elapsed time 1. -/
theorem bodies_in_orbital_plane_witness :
    (GLState.initial : GLState ℝ).modelview.depth + 1 < (Limits.mk 32 2 2).maxModelview
      ∧ Matrix.mulVec (sunModel (realLib 32767)) ![0, 0, 0, 1] 1 = 0 :=
  ⟨by decide,
    (bodies_in_orbital_plane 32767 (Limits.mk 32 2 2) (Textures.mk 1 2 3 4 5 6 7 8 9 10 11 12) 1
      (fun _ => 0) GLState.initial (by decide)).1.2.2⟩

theorem moon_height_at_one :
    Real.sin (1 * Real.pi / 180) * Real.cos (0.2 * 1)
      - Real.cos (1 * Real.pi / 180) * Real.sin (0.2 * 1) ≠ 0 := by
  have h : Real.sin (1 * Real.pi / 180) * Real.cos (0.2 * 1)
      - Real.cos (1 * Real.pi / 180) * Real.sin (0.2 * 1) = -Real.sin (0.2 - Real.pi / 180) := by
    rw [Real.sin_sub]
    ring_nf
  rw [h]
  have h3 := Real.pi_gt_three
  have h4 := Real.pi_le_four
  have hpos : 0 < Real.sin (0.2 - Real.pi / 180) :=
    Real.sin_pos_of_pos_of_lt_pi (by linarith) (by linarith)
  linarith

/-- C8 as stated fails for the moon: at elapsed time 1, in a frame started
in a fresh context, the moon is drawn under the camera matrix times a model
transform that maps the local origin to a point with `y ≠ 0`. -/
theorem moon_leaves_orbital_plane :
    ∃ st, st ∈ statesAt (realLib 32767) (Limits.mk 32 2 2) Body.moon GLState.initial
          (frame (realLib 32767) (Textures.mk 1 2 3 4 5 6 7 8 9 10 11 12) 1 (fun _ => 0))
      ∧ st.modelview.top
          = viewMatrix (realLib 32767)
              * moonModel (realLib 32767) 1 (orbitPosition (realLib 32767) 2 1)
      ∧ Matrix.mulVec (moonModel (realLib 32767) 1 (orbitPosition (realLib 32767) 2 1))
          ![0, 0, 0, 1] 1 ≠ 0 := by
  obtain ⟨st, hst⟩ := body_sphere_drawn (realLib 32767) (Limits.mk 32 2 2)
    (Textures.mk 1 2 3 4 5 6 7 8 9 10 11 12) 1 (fun _ => 0) GLState.initial _ _ _ _
    (moon_sphere_mem (realLib 32767) (Textures.mk 1 2 3 4 5 6 7 8 9 10 11 12) 1 (fun _ => 0))
  refine ⟨st, hst, ?_, ?_⟩
  · rw [moon_sphere_state _ _ _ _ _ _ st hst]
    exact moon_top _ _ _ _ _ (by decide)
  · rw [moonModel_origin_coords]
    simpa [orbitPosition_y] using moon_height_at_one

section BeltStates

variable {α : Type} [Field α] [DecidableEq α]

theorem mem_annotate_flatMap_range (E : CLib α) (L : Limits) (f : Nat → List (Cmd α))
    (s : GLState α) (n : Nat) (d : GLState α × Cmd α)
    (h : d ∈ annotate E L s ((List.range n).flatMap f)) :
    ∃ j, j < n ∧ d ∈ annotate E L (run E L s ((List.range j).flatMap f)) (f j) := by
  induction n with
  | zero => simp [annotate] at h
  | succ n ih =>
    rw [List.range_succ, List.flatMap_append, annotate_append, List.mem_append] at h
    rcases h with h | h
    · obtain ⟨j, hj, hd⟩ := ih h
      exact ⟨j, Nat.lt_succ_of_lt hj, hd⟩
    · simp only [List.flatMap_singleton] at h
      exact ⟨n, Nat.lt_succ_self n, h⟩

theorem mv_asteroids (E : CLib α) (L : Limits) (a b : α) (tex : Nat) (rnd : Nat → Nat)
    (k : Stack α) (hk : k.depth < L.maxModelview) (n : Nat) :
    ((List.range n).flatMap (fun (i : Nat) =>
        drawAsteroid E a b tex i (rnd (2 * i)) (rnd (2 * i + 1)))).foldl (execMV E L)
        (MatrixMode.modelview, k)
      = (MatrixMode.modelview, k) := by
  induction n with
  | zero => rfl
  | succ n ih =>
    rw [List.range_succ, List.flatMap_append, List.foldl_append, ih]
    simp only [List.flatMap_singleton]
    exact mv_drawAsteroid E L a b tex n _ _ k hk

theorem mode_of_foldl (E : CLib α) (L : Limits) (s : GLState α) (t : List (Cmd α))
    (m : MatrixMode) (k : Stack α) (h : t.foldl (execMV E L) (s.mode, s.modelview) = (m, k)) :
    (run E L s t).mode = m := by
  have h2 := run_mv E L s t
  rw [h] at h2
  exact congrArg Prod.fst h2

theorem drawAsteroid_eq (E : CLib α) (a b : α) (tex i r1 r2 : Nat) :
    drawAsteroid E a b tex i r1 r2
      = ([ Cmd.pushMatrix,
           Cmd.translatef (asteroidRadius E a b r2 * E.cos (asteroidAngle E r1)) 0
             (asteroidRadius E a b r2 * E.sin (asteroidAngle E r1)) ]
          ++ setMaterialColor 0.5 0.5 0.5 10
          ++ [Cmd.enable Cap.texture2D, Cmd.bindTexture tex])
        ++ Cmd.sphere (Body.asteroid i) 0.1 16 16
            :: [Cmd.disable Cap.texture2D, Cmd.popMatrix] := by
  simp [drawAsteroid]

/-- The state in which asteroid `i` is drawn by `drawAsteroidBelt`, called in
modelview mode with room for one push: the current matrix is the caller's
times the translation to the sampled position. -/
theorem asteroid_sphere_top (E : CLib α) (L : Limits) (a b : α) (N : Int) (tex : Nat)
    (rnd : Nat → Nat) (s st : GLState α) (i : Nat) (hmode : s.mode = MatrixMode.modelview)
    (hk : s.modelview.depth < L.maxModelview)
    (hst : st ∈ statesAt E L (Body.asteroid i) s (drawAsteroidBelt E a b N tex rnd)) :
    i < N.toNat
      ∧ st.modelview.top
          = s.modelview.top
              * translation
                  (asteroidRadius E a b (rnd (2 * i + 1)) * E.cos (asteroidAngle E (rnd (2 * i))))
                  0
                  (asteroidRadius E a b (rnd (2 * i + 1))
                    * E.sin (asteroidAngle E (rnd (2 * i)))) := by
  obtain ⟨c, hd, hc⟩ := (mem_statesAt E L _ s st _).mp hst
  obtain ⟨j, hj, hdj⟩ := mem_annotate_flatMap_range E L _ s _ _ hd
  rw [drawAsteroid_eq] at hdj
  have hq := annotate_unique E L _ _ _ _ Cmd.isSphere
    (by simp [setMaterialColor, Cmd.isSphere]) (by simp [Cmd.isSphere]) (st, c) hdj
    (isSphere_of_isSphereOf _ c hc)
  simp only [Prod.mk.injEq] at hq
  obtain ⟨hq1, hq2⟩ := hq
  rw [hq2] at hc
  simp only [Cmd.isSphereOf, decide_eq_true_eq, Body.asteroid.injEq] at hc
  subst hc
  refine ⟨hj, ?_⟩
  rw [hq1, ← run_append]
  have hk2 : s.modelview.below.length + 1 < L.maxModelview := hk
  rw [modelview_of_foldl E L s _ MatrixMode.modelview
    { top := s.modelview.top
              * translation
                  (asteroidRadius E a b (rnd (2 * j + 1)) * E.cos (asteroidAngle E (rnd (2 * j))))
                  0
                  (asteroidRadius E a b (rnd (2 * j + 1))
                    * E.sin (asteroidAngle E (rnd (2 * j)))),
      below := s.modelview.top :: s.modelview.below }]
  rw [List.foldl_append, hmode, mv_asteroids E L a b tex rnd _ hk j]
  simp [setMaterialColor, execMV, execModelview, Stack.push, Stack.depth, hk2]

theorem asteroid_sphere_drawn (E : CLib α) (L : Limits) (a b : α) (N : Int) (tex : Nat)
    (rnd : Nat → Nat) (s : GLState α) (i : Nat) (hi : i < N.toNat) :
    ∃ st, st ∈ statesAt E L (Body.asteroid i) s (drawAsteroidBelt E a b N tex rnd) := by
  have hmem : Cmd.sphere (Body.asteroid i) 0.1 16 16 ∈ drawAsteroidBelt E a b N tex rnd := by
    simp only [drawAsteroidBelt, List.mem_flatMap, List.mem_range]
    exact ⟨i, hi, by rw [drawAsteroid_eq]; simp⟩
  obtain ⟨st, hst⟩ := mem_annotate_of_mem E L s _ _ hmem
  exact ⟨st, (mem_statesAt E L _ s st _).mpr ⟨_, hst, by simp [Cmd.isSphereOf]⟩⟩

/-- The state in which asteroid `i` is drawn in a frame. -/
theorem asteroid_sphere_top_frame (E : CLib α) (L : Limits) (tex : Textures) (T : α)
    (rnd : Nat → Nat) (s st : GLState α) (i : Nat)
    (hk : s.modelview.depth + 1 < L.maxModelview)
    (hst : st ∈ statesAt E L (Body.asteroid i) s (frame E tex T rnd)) :
    i < 500
      ∧ st.modelview.top
          = viewMatrix E
              * translation
                  (asteroidRadius E 9 11 (rnd (2 * i + 1)) * E.cos (asteroidAngle E (rnd (2 * i))))
                  0
                  (asteroidRadius E 9 11 (rnd (2 * i + 1))
                    * E.sin (asteroidAngle E (rnd (2 * i)))) := by
  obtain ⟨c, hd, hc⟩ := (mem_statesAt E L _ s st _).mp hst
  have hfold := mv_frameUpToPlanet E L tex T s.mode s.modelview hk 8
  rcases sphere_state E L tex T rnd s (st, c) hd (isSphere_of_isSphereOf _ c hc)
    with hq | ⟨j, hj, hq⟩ | hq | hq
  · simp only [Prod.mk.injEq] at hq
    rw [hq.2] at hc; simp [Cmd.isSphereOf] at hc
  · simp only [Prod.mk.injEq] at hq
    rw [hq.2] at hc; simp [Cmd.isSphereOf] at hc
  · simp only [Prod.mk.injEq] at hq
    rw [hq.2] at hc; simp [Cmd.isSphereOf] at hc
  · have hroom : (run E L s (frameUpToPlanet E tex T 8)).modelview.depth < L.maxModelview := by
      rw [modelview_of_foldl E L s _ _ _ hfold]
      exact Nat.lt_of_succ_lt hk
    have h := asteroid_sphere_top E L 9 11 500 tex.asteroidTexture rnd
      (run E L s (frameUpToPlanet E tex T 8)) st i (mode_of_foldl E L s _ _ _ hfold) hroom
      ((mem_statesAt E L _ _ st _).mpr ⟨c, hq, hc⟩)
    rw [modelview_of_foldl E L s _ _ _ hfold] at h
    exact ⟨by simpa using h.1, h.2⟩

theorem asteroid_sphere_drawn_frame (E : CLib α) (L : Limits) (tex : Textures) (T : α)
    (rnd : Nat → Nat) (s : GLState α) (i : Nat) (hi : i < 500) :
    ∃ st, st ∈ statesAt E L (Body.asteroid i) s (frame E tex T rnd) := by
  have hmem : Cmd.sphere (Body.asteroid i) 0.1 16 16 ∈ frame E tex T rnd := by
    rw [frame_eq, List.mem_append]
    right
    simp only [drawAsteroidBelt, List.mem_flatMap, List.mem_range]
    exact ⟨i, by simpa using hi, by rw [drawAsteroid_eq]; simp⟩
  exact body_sphere_drawn E L tex T rnd s _ _ _ _ hmem

end BeltStates

theorem translation_origin (x y z : ℝ) :
    Matrix.mulVec (translation x y z) ![0, 0, 0, 1] = ![x, y, z, 1] := by
  rw [translation_mulVec]
  simp

theorem asteroid_position_in_annulus (R : Nat) (hR : 0 < R) (inner outer : ℝ)
    (h0 : 0 ≤ inner) (hio : inner ≤ outer) (r1 r2 : Nat) (hr2 : r2 ≤ R) :
    inner ≤ Real.sqrt
        ((asteroidRadius (realLib R) inner outer r2
            * (realLib R).cos (asteroidAngle (realLib R) r1)) ^ 2
          + (asteroidRadius (realLib R) inner outer r2
            * (realLib R).sin (asteroidAngle (realLib R) r1)) ^ 2)
      ∧ Real.sqrt
          ((asteroidRadius (realLib R) inner outer r2
              * (realLib R).cos (asteroidAngle (realLib R) r1)) ^ 2
            + (asteroidRadius (realLib R) inner outer r2
              * (realLib R).sin (asteroidAngle (realLib R) r1)) ^ 2) ≤ outer := by
  obtain ⟨hlo, hhi⟩ := asteroidRadius_mem R r2 hR hr2 inner outer hio
  have hd := planar_distance _ (asteroidAngle (realLib R) r1) (le_trans h0 hlo)
  simp only [realLib] at hd ⊢
  rw [hd]
  exact ⟨hlo, hhi⟩

/-- C3. For radii `0 ≤ inner ≤ outer`, a count `N ≥ 0` and `rand()` results
in `[0, RAND_MAX]`, `drawAsteroidBelt` draws exactly `N` spheres; every
translation `(x, y, z)` it issues has `y = 0` and planar distance
`sqrt(x^2 + z^2)` in `[inner, outer]`; called in modelview mode with room
for one push, it draws asteroid `i`, for every `i < N`, under the caller's
matrix times the translation to `(x_i, 0, z_i)`, the position sampled from
the `rand()` results `2 i` and `2 i + 1`, whose planar distance lies in
`[inner, outer]`.  The belt of the frame loop is the call with `N = 500`,
`inner = 9`, `outer = 11` at the end of the frame: each of its 500 asteroids
is drawn under the camera matrix times such a translation, at a planar
distance in `[9, 11]`. -/
theorem drawAsteroidBelt_spheres_in_annulus (R : Nat) (hR : 0 < R) (inner outer : ℝ)
    (h0 : 0 ≤ inner) (hio : inner ≤ outer) (N : Int) (hN : 0 ≤ N) (tex : Nat)
    (rnd : Nat → Nat) (hrnd : ∀ k, rnd k ≤ R) :
    ((((drawAsteroidBelt (realLib R) inner outer N tex rnd).filter Cmd.isSphere).length : Int)
        = N)
      ∧ (∀ x y z, Cmd.translatef x y z ∈ drawAsteroidBelt (realLib R) inner outer N tex rnd →
          y = 0 ∧ inner ≤ Real.sqrt (x ^ 2 + z ^ 2) ∧ Real.sqrt (x ^ 2 + z ^ 2) ≤ outer)
      ∧ (∀ (L : Limits) (s : GLState ℝ), s.mode = MatrixMode.modelview →
          s.modelview.depth < L.maxModelview → ∀ i : Nat, (i : Int) < N →
            (∃ st, st ∈ statesAt (realLib R) L (Body.asteroid i) s
                    (drawAsteroidBelt (realLib R) inner outer N tex rnd))
              ∧ (∀ st ∈ statesAt (realLib R) L (Body.asteroid i) s
                    (drawAsteroidBelt (realLib R) inner outer N tex rnd),
                  st.modelview.top
                    = s.modelview.top
                        * translation
                            (asteroidX (realLib R) inner outer (rnd (2 * i)) (rnd (2 * i + 1)))
                            0
                            (asteroidZ (realLib R) inner outer (rnd (2 * i)) (rnd (2 * i + 1))))
              ∧ Matrix.mulVec
                    (translation
                      (asteroidX (realLib R) inner outer (rnd (2 * i)) (rnd (2 * i + 1)))
                      0
                      (asteroidZ (realLib R) inner outer (rnd (2 * i)) (rnd (2 * i + 1))))
                    ![0, 0, 0, 1]
                  = ![asteroidX (realLib R) inner outer (rnd (2 * i)) (rnd (2 * i + 1)), 0,
                      asteroidZ (realLib R) inner outer (rnd (2 * i)) (rnd (2 * i + 1)), 1]
              ∧ inner ≤ Real.sqrt
                    (asteroidX (realLib R) inner outer (rnd (2 * i)) (rnd (2 * i + 1)) ^ 2
                      + asteroidZ (realLib R) inner outer (rnd (2 * i)) (rnd (2 * i + 1)) ^ 2)
              ∧ Real.sqrt
                    (asteroidX (realLib R) inner outer (rnd (2 * i)) (rnd (2 * i + 1)) ^ 2
                      + asteroidZ (realLib R) inner outer (rnd (2 * i)) (rnd (2 * i + 1)) ^ 2)
                  ≤ outer)
      ∧ (∀ (tx : Textures) (T : ℝ),
          frame (realLib R) tx T rnd
              = frameUpToPlanet (realLib R) tx T 8
                  ++ drawAsteroidBelt (realLib R) 9 11 500 tx.asteroidTexture rnd
            ∧ ((drawAsteroidBelt (realLib R) 9 11 500 tx.asteroidTexture rnd).filter
                  Cmd.isSphere).length = 500
            ∧ ∀ x y z,
                Cmd.translatef x y z
                    ∈ drawAsteroidBelt (realLib R) 9 11 500 tx.asteroidTexture rnd →
                  y = 0 ∧ 9 ≤ Real.sqrt (x ^ 2 + z ^ 2) ∧ Real.sqrt (x ^ 2 + z ^ 2) ≤ 11)
      ∧ (∀ (L : Limits) (s : GLState ℝ) (tx : Textures) (T : ℝ),
          s.modelview.depth + 1 < L.maxModelview → ∀ i : Nat, i < 500 →
            (∃ st, st ∈ statesAt (realLib R) L (Body.asteroid i) s (frame (realLib R) tx T rnd))
              ∧ (∀ st ∈ statesAt (realLib R) L (Body.asteroid i) s (frame (realLib R) tx T rnd),
                  st.modelview.top
                    = viewMatrix (realLib R)
                        * translation
                            (asteroidX (realLib R) 9 11 (rnd (2 * i)) (rnd (2 * i + 1)))
                            0
                            (asteroidZ (realLib R) 9 11 (rnd (2 * i)) (rnd (2 * i + 1))))
              ∧ 9 ≤ Real.sqrt
                    (asteroidX (realLib R) 9 11 (rnd (2 * i)) (rnd (2 * i + 1)) ^ 2
                      + asteroidZ (realLib R) 9 11 (rnd (2 * i)) (rnd (2 * i + 1)) ^ 2)
              ∧ Real.sqrt
                    (asteroidX (realLib R) 9 11 (rnd (2 * i)) (rnd (2 * i + 1)) ^ 2
                      + asteroidZ (realLib R) 9 11 (rnd (2 * i)) (rnd (2 * i + 1)) ^ 2)
                  ≤ 11) := by
  refine ⟨?_, ?_, ?_, ?_, ?_⟩
  · rw [drawAsteroidBelt, count_spheres_belt]
    exact Int.toNat_of_nonneg hN
  · intro x y z hmem
    exact belt_translations R hR inner outer h0 hio N tex rnd hrnd x y z hmem
  · intro L s hmode hk i hi
    have hi2 : i < N.toNat := by omega
    refine ⟨asteroid_sphere_drawn _ L inner outer N tex rnd s i hi2, ?_, translation_origin _ _ _,
      asteroid_position_in_annulus R hR inner outer h0 hio _ _ (hrnd _)⟩
    intro st hst
    exact (asteroid_sphere_top _ L inner outer N tex rnd s st i hmode hk hst).2
  · intro tx T
    refine ⟨rfl, ?_, ?_⟩
    · rw [drawAsteroidBelt, count_spheres_belt]
      rfl
    · intro x y z hmem
      exact belt_translations R hR 9 11 (by norm_num) (by norm_num) 500 _ rnd hrnd x y z hmem
  · intro L s tx T hk i hi
    refine ⟨asteroid_sphere_drawn_frame _ L tx T rnd s i hi, ?_,
      asteroid_position_in_annulus R hR 9 11 (by norm_num) (by norm_num) _ _ (hrnd _)⟩
    intro st hst
    exact (asteroid_sphere_top_frame _ L tx T rnd s st i hk hst).2

/-- Witness of C3: `RAND_MAX = 32767`, `rand()` always 5, the belt of the
frame loop. -/
theorem drawAsteroidBelt_spheres_in_annulus_witness :
    (0 < 32767 ∧ (0 : ℝ) ≤ 9 ∧ (9 : ℝ) ≤ 11 ∧ (0 : Int) ≤ 500)
      ∧ (((drawAsteroidBelt (realLib 32767) 9 11 500 6 (fun _ => 5)).filter
            Cmd.isSphere).length : Int) = 500 :=
  ⟨⟨by decide, by norm_num, by norm_num, by decide⟩,
    (drawAsteroidBelt_spheres_in_annulus 32767 (by decide) 9 11 (by norm_num) (by norm_num)
      500 (by decide) 6 (fun _ => 5) (fun _ => by norm_num)).1⟩

section Ring

variable {α : Type} [Field α] [DecidableEq α]

theorem draws_commands (E : CLib α) (L : Limits) (s : GLState α) (t : List (Cmd α)) :
    (draws E L s t).map Prod.snd = t.filter Cmd.isDraw := by
  induction t generalizing s with
  | nil => rfl
  | cons c t ih =>
    have h := ih (exec E L s c)
    simp only [draws] at h ⊢
    rw [annotate_cons, List.filter_cons, List.filter_cons]
    by_cases hc : c.isDraw = true
    · simp [hc, h]
    · simp [hc, h]

theorem filter_flatMap_range (p : Cmd α → Bool) (f : Nat → List (Cmd α)) (n : Nat) :
    ((List.range n).flatMap f).filter p = (List.range n).flatMap (fun i => (f i).filter p) := by
  induction n with
  | zero => rfl
  | succ n ih => simp [List.range_succ, List.flatMap_append, ih]

theorem drawTexturedRing_draws (E : CLib α) (a b : α) (n : Int) (t : Nat) :
    (drawTexturedRing E a b n t).filter Cmd.isDraw = ringVertices E a b n := by
  simp only [drawTexturedRing, ringVertices, List.filter_append, filter_flatMap_range]
  simp [Cmd.isDraw]

theorem frame_ring (E : CLib α) (tex : Textures) (T : α) (rnd : Nat → Nat) :
    frame E tex T rnd
      = frameUpToRing E tex T
          ++ drawTexturedRing E 1.3 2.1 64 tex.saturnRingTexture
          ++ ([Cmd.popMatrix, Cmd.popMatrix]
              ++ drawOrbitAndPlanet E tex T 6 ++ drawOrbitAndPlanet E tex T 7
              ++ drawAsteroidBelt E 9 11 500 tex.asteroidTexture rnd) := by
  have htail : planetTail E tex T 5
      = [Cmd.disable Cap.texture2D, Cmd.pushMatrix]
          ++ (drawTexturedRing E 1.3 2.1 64 tex.saturnRingTexture
              ++ [Cmd.popMatrix, Cmd.popMatrix]) := by
    simp [planetTail]
  rw [frame_eq, frameUpToPlanet_succ, frameUpToPlanet_succ, frameUpToPlanet_succ,
    drawOrbitAndPlanet_eq E tex T 5, htail, frameUpToRing]
  simp only [List.append_assoc, List.cons_append, List.nil_append]

theorem material_frameUpToRing (E : CLib α) (L : Limits) (tex : Textures) (T : α)
    (s : GLState α) :
    (run E L s (frameUpToRing E tex T)).material
      = { ambient := ![0.8 * 0.2, 0.8 * 0.2, 0.8 * 0.2, 1], diffuse := ![0.8, 0.8, 0.8, 1],
          specular := ![1, 1, 1, 1], emission := ![0, 0, 0, 1], shininess := 10 } := by
  rw [frameUpToRing, run_append, run_material_eq, material_at_planet_sphere, if_neg (by decide)]
  rfl

theorem ring_draw_material (E : CLib α) (L : Limits) (tex : Textures) (T : α)
    (s : GLState α) (d : GLState α × Cmd α)
    (hd : d ∈ draws E L (run E L s (frameUpToRing E tex T))
            (drawTexturedRing E 1.3 2.1 64 tex.saturnRingTexture)) :
    d.1.material
      = { ambient := ![0.8 * 0.2, 0.8 * 0.2, 0.8 * 0.2, 1], diffuse := ![0.8, 0.8, 0.8, 1],
          specular := ![1, 1, 1, 1], emission := ![0, 0, 0, 1], shininess := 10 } := by
  simp only [draws, List.mem_filter] at hd
  rw [annotate_material E L _ _
    (fun c hc => (drawTexturedRing_mem E _ _ _ _ c hc).2.1) d hd.1]
  exact material_frameUpToRing E L tex T s

theorem planetTail_two_material (E : CLib α) (tex : Textures) (T : α) (c : Cmd α)
    (hc : c ∈ planetTail E tex T 2) (hm : c.isMaterial = true) :
    c ∈ (setMaterialColor 0.8 0.8 0.8 10 : List (Cmd α)) := by
  rw [planetTail_two] at hc
  revert hm hc c
  simp [moonHead, setMaterialColor, Cmd.isMaterial]

end Ring

theorem length_flatMap_range_two (f : Nat → List (Cmd ℝ)) (h : ∀ i, (f i).length = 2)
    (n : Nat) : ((List.range n).flatMap f).length = 2 * n := by
  induction n with
  | zero => rfl
  | succ n ih =>
    rw [List.range_succ, List.flatMap_append, List.length_append, ih]
    simp only [List.flatMap_singleton, h]
    omega

theorem ringVertices_length (E : CLib ℝ) (a b : ℝ) :
    (ringVertices E a b 64).length = 130 := by
  unfold ringVertices
  rw [show ((64 : Int) + 1).toNat = 65 from rfl]
  refine length_flatMap_range_two _ ?_ 65
  intro i
  rfl

/-- C10 as stated fails: in Earth's draw scope, between its `glPushMatrix`
and `glPopMatrix`, a material command is issued (the moon's
`setMaterialColor`). -/
theorem moon_material_inside_earth_scope :
    ¬ (∀ c ∈ drawPlanetAt (realLib 32767) (Textures.mk 1 2 3 4 5 6 7 8 9 10 11 12) 0 2
              (orbitPosition (realLib 32767) 2 0),
          c.isMaterial = false) := by
  intro h
  have hmem : Cmd.materialShininess (10 : ℝ)
      ∈ drawPlanetAt (realLib 32767) (Textures.mk 1 2 3 4 5 6 7 8 9 10 11 12) 0 2
          (orbitPosition (realLib 32767) 2 0) := by
    simp [drawPlanetAt, drawMoon, setMaterialColor]
  have := h _ hmem
  simp [Cmd.isMaterial] at this

/-- C10, amended. In a frame started in any GL state, no material command
is issued in a planet's iteration before the planet's `gluSphere` call, and
none after it except, in Earth's scope, the moon's
`setMaterialColor(0.8, 0.8, 0.8, 10)`; every planet is drawn; Mercury, Venus
and Earth are drawn with the sun's material (ambient (0.2, 0.2, 0), diffuse
(1, 1, 0), shininess 100), Mars to Neptune with the moon's (ambient
(0.16, 0.16, 0.16), diffuse (0.8, 0.8, 0.8), shininess 10); Saturn's ring is
part of Saturn's iteration, it emits its 130 vertices (inner and outer
circle for each of the 65 steps), and each of them, like everything issued
in Saturn's iteration, is issued with the moon's material. -/
theorem planets_inherit_material (R : Nat) (L : Limits) (tex : Textures) (T : ℝ)
    (rnd : Nat → Nat) (s : GLState ℝ) :
    (∀ i, drawOrbitAndPlanet (realLib R) tex T i
            = planetHead (realLib R) tex T i
                ++ Cmd.sphere (Body.planet i) (0.5 + 0.1 * (i : ℝ)) 32 32
                    :: planetTail (realLib R) tex T i
          ∧ (∀ c ∈ planetHead (realLib R) tex T i, c.isMaterial = false)
          ∧ (i ≠ 2 → ∀ c ∈ planetTail (realLib R) tex T i, c.isMaterial = false))
      ∧ (∀ c ∈ planetTail (realLib R) tex T 2, c.isMaterial = true →
          c ∈ (setMaterialColor 0.8 0.8 0.8 10 : List (Cmd ℝ)))
      ∧ (∀ i, i < 8 →
          ∃ st, st ∈ statesAt (realLib R) L (Body.planet i) s (frame (realLib R) tex T rnd))
      ∧ (∀ i, i < 3 →
          ∀ st ∈ statesAt (realLib R) L (Body.planet i) s (frame (realLib R) tex T rnd),
            st.material.ambient = ![0.2, 0.2, 0, 1] ∧ st.material.diffuse = ![1, 1, 0, 1]
              ∧ st.material.shininess = 100)
      ∧ (∀ i, 3 ≤ i →
          ∀ st ∈ statesAt (realLib R) L (Body.planet i) s (frame (realLib R) tex T rnd),
            st.material.ambient = ![0.16, 0.16, 0.16, 1]
              ∧ st.material.diffuse = ![0.8, 0.8, 0.8, 1] ∧ st.material.shininess = 10)
      ∧ (∀ c ∈ drawTexturedRing (realLib R) 1.3 2.1 64 tex.saturnRingTexture,
          c ∈ drawOrbitAndPlanet (realLib R) tex T 5)
      ∧ (∀ d ∈ annotate (realLib R) L (run (realLib R) L s (frameUpToPlanet (realLib R) tex T 5))
                (drawOrbitAndPlanet (realLib R) tex T 5),
          d.1.material.ambient = ![0.16, 0.16, 0.16, 1]
            ∧ d.1.material.diffuse = ![0.8, 0.8, 0.8, 1] ∧ d.1.material.shininess = 10)
      ∧ frame (realLib R) tex T rnd
          = frameUpToRing (realLib R) tex T
              ++ drawTexturedRing (realLib R) 1.3 2.1 64 tex.saturnRingTexture
              ++ ([Cmd.popMatrix, Cmd.popMatrix]
                  ++ drawOrbitAndPlanet (realLib R) tex T 6
                  ++ drawOrbitAndPlanet (realLib R) tex T 7
                  ++ drawAsteroidBelt (realLib R) 9 11 500 tex.asteroidTexture rnd)
      ∧ (draws (realLib R) L (run (realLib R) L s (frameUpToRing (realLib R) tex T))
            (drawTexturedRing (realLib R) 1.3 2.1 64 tex.saturnRingTexture)).map Prod.snd
          = ringVertices (realLib R) 1.3 2.1 64
      ∧ (ringVertices (realLib R) 1.3 2.1 64).length = 130
      ∧ (∀ d ∈ draws (realLib R) L (run (realLib R) L s (frameUpToRing (realLib R) tex T))
                (drawTexturedRing (realLib R) 1.3 2.1 64 tex.saturnRingTexture),
          d.1.material.ambient = ![0.16, 0.16, 0.16, 1]
            ∧ d.1.material.diffuse = ![0.8, 0.8, 0.8, 1] ∧ d.1.material.shininess = 10) := by
  refine ⟨fun i => ⟨drawOrbitAndPlanet_eq _ tex T i,
      fun c hc => (planetHead_mem _ tex T i c hc).1,
      fun hi c hc => (planetTail_mem _ tex T i hi c hc).2⟩,
    fun c hc hm => planetTail_two_material _ tex T c hc hm,
    fun i hi => planet_sphere_drawn _ L tex T rnd s i hi, ?_, ?_, ?_, ?_,
    frame_ring _ tex T rnd, ?_, ringVertices_length _ _ _, ?_⟩
  · intro i hi st hst
    obtain ⟨-, rfl⟩ := planet_sphere_state _ L tex T rnd s st i hst
    rw [material_at_planet_sphere, if_pos (by omega)]
    refine ⟨?_, rfl, rfl⟩
    norm_num
  · intro i hi st hst
    obtain ⟨-, rfl⟩ := planet_sphere_state _ L tex T rnd s st i hst
    rw [material_at_planet_sphere, if_neg (by omega)]
    refine ⟨?_, rfl, rfl⟩
    norm_num
  · intro c hc
    rw [drawOrbitAndPlanet_eq]
    simp [planetTail, hc]
  · intro d hd
    rw [annotate_material _ L _ _ (no_material_in_iteration _ tex T 5 (by decide)) d hd,
      run_material_eq, material_frameUpToPlanet, if_neg (by decide)]
    refine ⟨?_, rfl, rfl⟩
    norm_num
  · rw [draws_commands, drawTexturedRing_draws]
  · intro d hd
    rw [ring_draw_material _ L tex T s d hd]
    refine ⟨?_, rfl, rfl⟩
    norm_num

/-! ## binary32 rounding -/

theorem roundHalfEven_intCast (n : ℤ) : roundHalfEven (n : ℚ) = n := by
  simp [roundHalfEven]

theorem floor_le_roundHalfEven (y : ℚ) : ⌊y⌋ ≤ roundHalfEven y := by
  unfold roundHalfEven
  split_ifs <;> omega

theorem roundHalfEven_le_floor_succ (y : ℚ) : roundHalfEven y ≤ ⌊y⌋ + 1 := by
  unfold roundHalfEven
  split_ifs <;> omega

theorem roundHalfEven_mono {y z : ℚ} (h : y ≤ z) : roundHalfEven y ≤ roundHalfEven z := by
  rcases lt_or_eq_of_le (Int.floor_mono h) with hlt | heq
  · exact le_trans (roundHalfEven_le_floor_succ y)
      (le_trans (by omega) (floor_le_roundHalfEven z))
  · unfold roundHalfEven
    rw [← heq]
    split_ifs <;> first | omega | (exfalso; linarith)

/-- A rational strictly within one half of an integer rounds to it. -/
theorem roundHalfEven_eq_of_near (y : ℚ) (n : ℤ) (h1 : (n : ℚ) - 1 / 2 < y)
    (h2 : y < (n : ℚ) + 1 / 2) : roundHalfEven y = n := by
  rcases le_or_lt (n : ℚ) y with hny | hyn
  · have hf : ⌊y⌋ = n := Int.floor_eq_iff.mpr ⟨hny, by linarith⟩
    unfold roundHalfEven
    rw [hf, if_pos (by linarith)]
  · have hf : ⌊y⌋ = n - 1 := Int.floor_eq_iff.mpr ⟨by push_cast; linarith, by push_cast; linarith⟩
    unfold roundHalfEven
    rw [hf, if_neg (by push_cast; linarith), if_pos (by push_cast; linarith)]
    omega

/-- A tie above an odd integer goes up. -/
theorem roundHalfEven_tie_odd (n : ℤ) (hn : n % 2 = 1) :
    roundHalfEven ((n : ℚ) + 1 / 2) = n + 1 := by
  have hf : ⌊(n : ℚ) + 1 / 2⌋ = n :=
    Int.floor_eq_iff.mpr ⟨by linarith, by linarith⟩
  unfold roundHalfEven
  rw [hf, if_neg (by linarith), if_neg (by linarith), if_neg (by omega)]

/-- A tie above an even integer goes down. -/
theorem roundHalfEven_tie_even (n : ℤ) (hn : n % 2 = 0) :
    roundHalfEven ((n : ℚ) + 1 / 2) = n := by
  have hf : ⌊(n : ℚ) + 1 / 2⌋ = n :=
    Int.floor_eq_iff.mpr ⟨by linarith, by linarith⟩
  unfold roundHalfEven
  rw [hf, if_neg (by linarith), if_neg (by linarith), if_pos hn]


theorem quantum_pos (k : ℤ) : (0 : ℚ) < 2 ^ k := zpow_pos (by norm_num) k

theorem log_eq_of_binade (x : ℚ) (e : ℤ) (hlo : (2 : ℚ) ^ e ≤ x) (hhi : x < 2 ^ (e + 1)) :
    Int.log 2 x = e := by
  have hx : 0 < x := lt_of_lt_of_le (quantum_pos e) hlo
  have h1 : e ≤ Int.log 2 x :=
    (Int.zpow_le_iff_le_log (by norm_num) hx).mp (by simpa using hlo)
  have h2 : Int.log 2 x < e + 1 :=
    (Int.lt_zpow_iff_log_lt (by norm_num) hx).mp (by simpa using hhi)
  omega

theorem binade_of_pos (x : ℚ) (hx : 0 < x) :
    (2 : ℚ) ^ Int.log 2 x ≤ x ∧ x < 2 ^ (Int.log 2 x + 1) := by
  have h1 := Int.zpow_log_le_self (b := 2) (r := x) (by norm_num) hx
  have h2 := Int.lt_zpow_succ_log_self (b := 2) (by norm_num) x
  exact ⟨by simpa using h1, by simpa using h2⟩

theorem roundPos_zero : roundPos 0 = 0 := by
  have h : roundHalfEven (0 : ℚ) = 0 := by
    simpa using roundHalfEven_intCast 0
  simp [roundPos, h]

theorem roundPos_nonneg (x : ℚ) (hx : 0 ≤ x) : 0 ≤ roundPos x := by
  unfold roundPos
  have hq := quantum_pos (quantumExp x)
  have h0 : (0 : ℤ) ≤ roundHalfEven (x / 2 ^ quantumExp x) :=
    le_trans (Int.floor_nonneg.mpr (div_nonneg hx hq.le)) (floor_le_roundHalfEven _)
  have h1 : (0 : ℚ) ≤ (roundHalfEven (x / 2 ^ quantumExp x) : ℚ) := by exact_mod_cast h0
  exact mul_nonneg h1 hq.le

/-- A power of two that is a multiple of the quantum, as an integer number of
quanta. -/
theorem zpow_div_quantum (m k : ℤ) (h : k ≤ m) :
    (2 : ℚ) ^ m / 2 ^ k = (((2 : ℤ) ^ (m - k).toNat : ℤ) : ℚ) := by
  rw [← zpow_sub₀ (by norm_num : (2 : ℚ) ≠ 0)]
  have hj : ((m - k).toNat : ℤ) = m - k := Int.toNat_of_nonneg (by omega)
  push_cast
  rw [← zpow_natCast, hj]

theorem roundPos_le_zpow (x : ℚ) (m : ℤ) (hx : x ≤ 2 ^ m) (hk : quantumExp x ≤ m) :
    roundPos x ≤ 2 ^ m := by
  have hq := quantum_pos (quantumExp x)
  have h1 : x / 2 ^ quantumExp x ≤ (((2 : ℤ) ^ (m - quantumExp x).toNat : ℤ) : ℚ) := by
    rw [← zpow_div_quantum m _ hk]
    exact div_le_div_of_nonneg_right hx hq.le
  have h2 := roundHalfEven_mono h1
  rw [roundHalfEven_intCast] at h2
  have h3 : (roundHalfEven (x / 2 ^ quantumExp x) : ℚ)
      ≤ (((2 : ℤ) ^ (m - quantumExp x).toNat : ℤ) : ℚ) := by exact_mod_cast h2
  unfold roundPos
  calc (roundHalfEven (x / 2 ^ quantumExp x) : ℚ) * 2 ^ quantumExp x
      ≤ (((2 : ℤ) ^ (m - quantumExp x).toNat : ℤ) : ℚ) * 2 ^ quantumExp x :=
        mul_le_mul_of_nonneg_right h3 hq.le
    _ = 2 ^ m := by
        rw [← zpow_div_quantum m _ hk, div_mul_cancel₀ _ (ne_of_gt hq)]

theorem zpow_le_roundPos (x : ℚ) (m : ℤ) (hx : 2 ^ m ≤ x) (hk : quantumExp x ≤ m) :
    2 ^ m ≤ roundPos x := by
  have hq := quantum_pos (quantumExp x)
  have h1 : (((2 : ℤ) ^ (m - quantumExp x).toNat : ℤ) : ℚ) ≤ x / 2 ^ quantumExp x := by
    rw [← zpow_div_quantum m _ hk]
    exact div_le_div_of_nonneg_right hx hq.le
  have h2 := roundHalfEven_mono h1
  rw [roundHalfEven_intCast] at h2
  have h3 : (((2 : ℤ) ^ (m - quantumExp x).toNat : ℤ) : ℚ)
      ≤ (roundHalfEven (x / 2 ^ quantumExp x) : ℚ) := by exact_mod_cast h2
  unfold roundPos
  calc (2 : ℚ) ^ m
      = (((2 : ℤ) ^ (m - quantumExp x).toNat : ℤ) : ℚ) * 2 ^ quantumExp x := by
        rw [← zpow_div_quantum m _ hk, div_mul_cancel₀ _ (ne_of_gt hq)]
    _ ≤ (roundHalfEven (x / 2 ^ quantumExp x) : ℚ) * 2 ^ quantumExp x :=
        mul_le_mul_of_nonneg_right h3 hq.le

theorem roundPos_mono {x y : ℚ} (hx : 0 ≤ x) (hxy : x ≤ y) : roundPos x ≤ roundPos y := by
  rcases eq_or_lt_of_le hx with h0 | hpos
  · rw [← h0, roundPos_zero]
    exact roundPos_nonneg y (le_trans hx hxy)
  · have hypos : 0 < y := lt_of_lt_of_le hpos hxy
    have hlog : Int.log 2 x ≤ Int.log 2 y := Int.log_mono_right hpos hxy
    obtain ⟨-, hxhi⟩ := binade_of_pos x hpos
    obtain ⟨hylo, -⟩ := binade_of_pos y hypos
    by_cases hk : quantumExp x = quantumExp y
    · unfold roundPos
      rw [hk]
      have hq := quantum_pos (quantumExp y)
      have h1 : x / 2 ^ quantumExp y ≤ y / 2 ^ quantumExp y :=
        div_le_div_of_nonneg_right hxy hq.le
      have h2 : (roundHalfEven (x / 2 ^ quantumExp y) : ℚ)
          ≤ (roundHalfEven (y / 2 ^ quantumExp y) : ℚ) := by
        exact_mod_cast roundHalfEven_mono h1
      exact mul_le_mul_of_nonneg_right h2 hq.le
    · have hkx : quantumExp x = max (Int.log 2 x - 23) (-149) := rfl
      have hky : quantumExp y = max (Int.log 2 y - 23) (-149) := rfl
      have hlt : Int.log 2 x + 1 ≤ Int.log 2 y := by omega
      have hxb : x ≤ 2 ^ Int.log 2 y :=
        le_trans hxhi.le (zpow_le_zpow_right₀ (by norm_num) hlt)
      exact le_trans (roundPos_le_zpow x _ hxb (by omega))
        (zpow_le_roundPos y _ hylo (by omega))

theorem roundF32_of_nonneg (x : ℚ) (hx : 0 ≤ x) : roundF32 x = roundPos x := by
  unfold roundF32
  rw [if_neg (not_lt.mpr hx)]

theorem roundF32_zero : roundF32 0 = 0 := by
  rw [roundF32_of_nonneg 0 le_rfl, roundPos_zero]

theorem roundF32_mono {x y : ℚ} (hxy : x ≤ y) : roundF32 x ≤ roundF32 y := by
  unfold roundF32
  by_cases hx : x < 0
  · by_cases hy : y < 0
    · rw [if_pos hx, if_pos hy]
      exact neg_le_neg (roundPos_mono (by linarith) (by linarith))
    · rw [if_pos hx, if_neg hy]
      have h1 := roundPos_nonneg (-x) (by linarith)
      have h2 := roundPos_nonneg y (not_lt.mp hy)
      linarith
  · have hy : ¬ y < 0 := by
      intro h
      exact hx (lt_of_le_of_lt hxy h)
    rw [if_neg hx, if_neg hy]
    exact roundPos_mono (not_lt.mp hx) hxy

theorem roundF32_nonneg {x : ℚ} (hx : 0 ≤ x) : 0 ≤ roundF32 x := by
  rw [roundF32_of_nonneg x hx]
  exact roundPos_nonneg x hx

/-- Rounding of `x` in the binade `[2 ^ e, 2 ^ (e + 1))`, `e ≥ -126`, given
the rounding of its mantissa. -/
theorem roundF32_eq_of_binade (x : ℚ) (e n : ℤ) (hlo : (2 : ℚ) ^ e ≤ x)
    (hhi : x < 2 ^ (e + 1)) (he : -126 ≤ e)
    (hn : roundHalfEven (x / 2 ^ (e - 23)) = n) : roundF32 x = (n : ℚ) * 2 ^ (e - 23) := by
  have hx : 0 < x := lt_of_lt_of_le (quantum_pos e) hlo
  have hk : quantumExp x = e - 23 := by
    unfold quantumExp
    rw [log_eq_of_binade x e hlo hhi]
    omega
  rw [roundF32_of_nonneg x hx.le]
  unfold roundPos
  rw [hk, hn]


/-! ## Values of `float` constants and operations -/

theorem roundF32_one : roundF32 1 = 1 := by
  have h := roundF32_eq_of_binade 1 0 8388608 (by norm_num) (by norm_num) (by norm_num)
    (by rw [show (1 : ℚ) / 2 ^ ((0 : ℤ) - 23) = ((8388608 : ℤ) : ℚ) from by norm_num]
        exact roundHalfEven_intCast _)
  rw [h]; norm_num

theorem roundF32_two : roundF32 2 = 2 := by
  have h := roundF32_eq_of_binade 2 1 8388608 (by norm_num) (by norm_num) (by norm_num)
    (by rw [show (2 : ℚ) / 2 ^ ((1 : ℤ) - 23) = ((8388608 : ℤ) : ℚ) from by norm_num]
        exact roundHalfEven_intCast _)
  rw [h]; norm_num

theorem roundF32_two_literal : roundF32 2.0 = 2 := by
  rw [show (2.0 : ℚ) = 2 from by norm_num, roundF32_two]

theorem roundF32_nine : roundF32 9 = 9 := by
  have h := roundF32_eq_of_binade 9 3 9437184 (by norm_num) (by norm_num) (by norm_num)
    (by rw [show (9 : ℚ) / 2 ^ ((3 : ℤ) - 23) = ((9437184 : ℤ) : ℚ) from by norm_num]
        exact roundHalfEven_intCast _)
  rw [h]; norm_num

theorem roundF32_eleven : roundF32 11 = 11 := by
  have h := roundF32_eq_of_binade 11 3 11534336 (by norm_num) (by norm_num) (by norm_num)
    (by rw [show (11 : ℚ) / 2 ^ ((3 : ℤ) - 23) = ((11534336 : ℤ) : ℚ) from by norm_num]
        exact roundHalfEven_intCast _)
  rw [h]; norm_num

theorem PI_F32_eq : PI_F32 = 13176795 / 4194304 := by
  unfold PI_F32
  have h := roundF32_eq_of_binade 3.14159265358979323846 1 13176795 (by norm_num) (by norm_num)
    (by norm_num)
    (roundHalfEven_eq_of_near _ _ (by norm_num) (by norm_num))
  rw [h]; norm_num

theorem roundF32_two_PI : roundF32 (2 * (13176795 / 4194304)) = 13176795 / 2097152 := by
  have h := roundF32_eq_of_binade (2 * (13176795 / 4194304)) 2 13176795 (by norm_num)
    (by norm_num) (by norm_num)
    (by rw [show (2 * (13176795 / 4194304) : ℚ) / 2 ^ ((2 : ℤ) - 23) = ((13176795 : ℤ) : ℚ)
          from by norm_num]
        exact roundHalfEven_intCast _)
  rw [h]; norm_num

theorem two_pi_lt_float : 2 * Real.pi < (((13176795 / 2097152 : ℚ)) : ℝ) := by
  have h := Real.pi_lt_d20
  push_cast
  norm_num at h ⊢
  linarith


/-! ## Rounding is idempotent -/

theorem roundPos_of_quanta (z : ℚ) (n : ℤ) (hz : 0 ≤ z)
    (h : z / 2 ^ quantumExp z = (n : ℚ)) : roundPos z = z := by
  unfold roundPos
  rw [h, roundHalfEven_intCast, ← h, div_mul_cancel₀ _ (ne_of_gt (quantum_pos _))]

theorem roundPos_idem (x : ℚ) (hx : 0 ≤ x) : roundPos (roundPos x) = roundPos x := by
  rcases eq_or_lt_of_le (roundPos_nonneg x hx) with h0 | hzpos
  · rw [← h0, roundPos_zero]
  · have hxpos : 0 < x := by
      rcases eq_or_lt_of_le hx with h | h
      · rw [← h, roundPos_zero] at hzpos
        exact absurd hzpos (lt_irrefl _)
      · exact h
    obtain ⟨-, hxhi⟩ := binade_of_pos x hxpos
    obtain ⟨hzlo, -⟩ := binade_of_pos (roundPos x) hzpos
    have hkx : quantumExp x = max (Int.log 2 x - 23) (-149) := rfl
    have hkz : quantumExp (roundPos x) = max (Int.log 2 (roundPos x) - 23) (-149) := rfl
    by_cases hk : quantumExp (roundPos x) ≤ quantumExp x
    · -- the result is a whole number of its own quanta
      have hj : ((quantumExp x - quantumExp (roundPos x)).toNat : ℤ)
          = quantumExp x - quantumExp (roundPos x) := Int.toNat_of_nonneg (by omega)
      refine roundPos_of_quanta _
        (roundHalfEven (x / 2 ^ quantumExp x)
          * (2 : ℤ) ^ (quantumExp x - quantumExp (roundPos x)).toNat) hzpos.le ?_
      have hq := quantum_pos (quantumExp (roundPos x))
      rw [div_eq_iff (ne_of_gt hq)]
      push_cast
      rw [mul_assoc, ← zpow_natCast, hj, ← zpow_add₀ (by norm_num : (2 : ℚ) ≠ 0)]
      rw [show quantumExp x - quantumExp (roundPos x) + quantumExp (roundPos x) = quantumExp x
        from by ring]
      rfl
    · -- rounding carried into the next binade: the result is a power of two
      have hlog : max (Int.log 2 x + 1) (-149) ≤ Int.log 2 (roundPos x) := by omega
      have hup : roundPos x ≤ 2 ^ (max (Int.log 2 x + 1) (-149)) := by
        refine roundPos_le_zpow x _ ?_ ?_
        · exact le_trans hxhi.le (zpow_le_zpow_right₀ (by norm_num) (le_max_left _ _))
        · omega
      have hlow : (2 : ℚ) ^ (max (Int.log 2 x + 1) (-149)) ≤ roundPos x :=
        le_trans (zpow_le_zpow_right₀ (by norm_num) hlog) hzlo
      have hzeq : roundPos x = 2 ^ (max (Int.log 2 x + 1) (-149)) := le_antisymm hup hlow
      have hlogz : Int.log 2 (roundPos x) = max (Int.log 2 x + 1) (-149) := by
        rw [hzeq]
        have := Int.log_zpow (R := ℚ) (b := 2) (by norm_num) (max (Int.log 2 x + 1) (-149))
        simpa using this
      have hkz2 : quantumExp (roundPos x) = max (Int.log 2 x + 1) (-149) - 23 := by omega
      refine roundPos_of_quanta _ ((2 : ℤ) ^ (23 : ℕ)) hzpos.le ?_
      rw [hkz2]
      conv_lhs => rw [hzeq]
      rw [← zpow_sub₀ (by norm_num : (2 : ℚ) ≠ 0)]
      rw [show max (Int.log 2 x + 1) (-149) - (max (Int.log 2 x + 1) (-149) - 23)
        = ((23 : ℕ) : ℤ) from by push_cast; ring]
      rw [zpow_natCast]
      push_cast
      rfl

theorem roundF32_idem (x : ℚ) : roundF32 (roundF32 x) = roundF32 x := by
  by_cases hx : x < 0
  · have hz := roundPos_nonneg (-x) (by linarith)
    have h1 : roundF32 x = -roundPos (-x) := by
      unfold roundF32; rw [if_pos hx]
    rw [h1]
    rcases eq_or_lt_of_le hz with h0 | hpos
    · rw [← h0]; simp [roundF32_zero]
    · have hneg : -roundPos (-x) < 0 := by linarith
      unfold roundF32
      rw [if_pos hneg, neg_neg, roundPos_idem (-x) (by linarith)]
  · have hx0 : 0 ≤ x := not_lt.mp hx
    rw [roundF32_of_nonneg x hx0, roundF32_of_nonneg _ (roundPos_nonneg x hx0),
      roundPos_idem x hx0]

/-! ## Lines 46-47 in binary32: ranges -/

theorem roundF32_natCast_pos (R : Nat) (hR : 0 < R) : 1 ≤ roundF32 (R : ℚ) := by
  have h1 : (1 : ℚ) ≤ (R : ℚ) := by exact_mod_cast hR
  have h2 := roundF32_mono h1
  rwa [roundF32_one] at h2

theorem unitRandF32_range (R r : Nat) (hR : 0 < R) (hr : r ≤ R) :
    0 ≤ unitRandF32 R r ∧ unitRandF32 R r ≤ 1 := by
  have hb := roundF32_natCast_pos R hR
  have ha0 : 0 ≤ roundF32 (r : ℚ) := roundF32_nonneg (by positivity)
  have hab : roundF32 (r : ℚ) ≤ roundF32 (R : ℚ) := roundF32_mono (by exact_mod_cast hr)
  unfold unitRandF32
  constructor
  · exact roundF32_nonneg (div_nonneg ha0 (by linarith))
  · have h1 : roundF32 (r : ℚ) / roundF32 (R : ℚ) ≤ 1 := (div_le_one (by linarith)).mpr hab
    have h2 := roundF32_mono h1
    rwa [roundF32_one] at h2

theorem unitRandF32_max (R : Nat) (hR : 0 < R) : unitRandF32 R R = 1 := by
  have hb := roundF32_natCast_pos R hR
  unfold unitRandF32
  rw [div_self (by linarith), roundF32_one]

theorem unitRandF32_mono (R : Nat) (hR : 0 < R) {r s : Nat} (h : r ≤ s) :
    unitRandF32 R r ≤ unitRandF32 R s := by
  have hb := roundF32_natCast_pos R hR
  unfold unitRandF32
  exact roundF32_mono
    (div_le_div_of_nonneg_right (roundF32_mono (by exact_mod_cast h)) (by linarith))

theorem asteroidAngleF32_mono (R : Nat) (hR : 0 < R) {r s : Nat} (h : r ≤ s) :
    asteroidAngleF32 R r ≤ asteroidAngleF32 R s := by
  unfold asteroidAngleF32
  rw [roundF32_two_literal, PI_F32_eq]
  exact roundF32_mono (mul_le_mul_of_nonneg_right
    (roundF32_mono (mul_le_mul_of_nonneg_right (unitRandF32_mono R hR h) (by norm_num)))
    (by norm_num))

theorem asteroidAngleF32_zero (R : Nat) : asteroidAngleF32 R 0 = 0 := by
  simp [asteroidAngleF32, unitRandF32, roundF32_zero]

theorem asteroidAngleF32_max (R : Nat) (hR : 0 < R) :
    asteroidAngleF32 R R = 13176795 / 2097152 := by
  unfold asteroidAngleF32
  rw [unitRandF32_max R hR, roundF32_two_literal, one_mul, roundF32_two, PI_F32_eq,
    roundF32_two_PI]

theorem asteroidRadiusF32_mono (R : Nat) (hR : 0 < R) (inner outer : ℚ) (hio : inner ≤ outer)
    {r s : Nat} (h : r ≤ s) :
    asteroidRadiusF32 R inner outer r ≤ asteroidRadiusF32 R inner outer s := by
  have hd : 0 ≤ roundF32 (outer - inner) := roundF32_nonneg (by linarith)
  unfold asteroidRadiusF32
  exact roundF32_mono (add_le_add_left
    (roundF32_mono (mul_le_mul_of_nonneg_right (unitRandF32_mono R hR h) hd)) _)

theorem asteroidRadiusF32_ge (R r : Nat) (hR : 0 < R) (hr : r ≤ R) (inner outer : ℚ)
    (hin : roundF32 inner = inner) (hio : inner ≤ outer) :
    inner ≤ asteroidRadiusF32 R inner outer r := by
  have hd : 0 ≤ roundF32 (outer - inner) := roundF32_nonneg (by linarith)
  have hu := (unitRandF32_range R r hR hr).1
  have hw : 0 ≤ roundF32 (unitRandF32 R r * roundF32 (outer - inner)) :=
    roundF32_nonneg (mul_nonneg hu hd)
  unfold asteroidRadiusF32
  calc inner = roundF32 inner := hin.symm
    _ ≤ roundF32 (inner + roundF32 (unitRandF32 R r * roundF32 (outer - inner))) :=
        roundF32_mono (by linarith)

theorem asteroidRadiusF32_frame_max (R : Nat) (hR : 0 < R) :
    asteroidRadiusF32 R 9 11 R = 11 := by
  unfold asteroidRadiusF32
  rw [unitRandF32_max R hR, show (11 : ℚ) - 9 = 2 from by norm_num, roundF32_two, one_mul,
    roundF32_two, show (9 : ℚ) + 2 = 11 from by norm_num, roundF32_eleven]


/-! ## Lines 46-47 in binary32: the boundary values -/

theorem roundF32_near_two_pow_31 (x : ℚ) (hlo : 2147483584 < x) (hhi : x < 2147483648) :
    roundF32 x = 2147483648 := by
  have h := roundF32_eq_of_binade x 30 16777216 (by norm_num; linarith) (by norm_num; linarith)
    (by norm_num)
    (roundHalfEven_eq_of_near _ _
      (by rw [lt_div_iff₀ (quantum_pos _)]; norm_num; linarith)
      (by rw [div_lt_iff₀ (quantum_pos _)]; norm_num; linarith))
  rw [h]; norm_num

theorem unitRandF32_glibc : unitRandF32 2147483647 2147483646 = 1 := by
  have h1 : roundF32 ((2147483646 : Nat) : ℚ) = 2147483648 :=
    roundF32_near_two_pow_31 _ (by norm_num) (by norm_num)
  have h2 : roundF32 ((2147483647 : Nat) : ℚ) = 2147483648 :=
    roundF32_near_two_pow_31 _ (by norm_num) (by norm_num)
  unfold unitRandF32
  rw [h1, h2, div_self (by norm_num), roundF32_one]

theorem asteroidAngleF32_glibc :
    asteroidAngleF32 2147483647 2147483646 = 13176795 / 2097152 := by
  unfold asteroidAngleF32
  rw [unitRandF32_glibc, roundF32_two_literal, one_mul, roundF32_two, PI_F32_eq,
    roundF32_two_PI]

theorem roundF32_07 : roundF32 0.7 = 11744051 / 16777216 := by
  have h := roundF32_eq_of_binade 0.7 (-1) 11744051 (by norm_num) (by norm_num) (by norm_num)
    (roundHalfEven_eq_of_near _ _ (by norm_num) (by norm_num))
  rw [h]; norm_num

theorem roundF32_19 : roundF32 1.9 = 15938355 / 8388608 := by
  have h := roundF32_eq_of_binade 1.9 0 15938355 (by norm_num) (by norm_num) (by norm_num)
    (roundHalfEven_eq_of_near _ _ (by norm_num) (by norm_num))
  rw [h]; norm_num

theorem roundF32_19_sub_07 :
    roundF32 (15938355 / 8388608 - 11744051 / 16777216) = 10066330 / 8388608 := by
  have h := roundF32_eq_of_binade (15938355 / 8388608 - 11744051 / 16777216) 0 10066330
    (by norm_num) (by norm_num) (by norm_num)
    (by rw [show ((15938355 / 8388608 - 11744051 / 16777216 : ℚ)) / 2 ^ ((0 : ℤ) - 23)
              = ((10066329 : ℤ) : ℚ) + 1 / 2 from by norm_num]
        exact roundHalfEven_tie_odd 10066329 (by norm_num))
  rw [h]; norm_num

theorem roundF32_width : roundF32 (10066330 / 8388608) = 10066330 / 8388608 := by
  have h := roundF32_eq_of_binade (10066330 / 8388608) 0 10066330
    (by norm_num) (by norm_num) (by norm_num)
    (by rw [show ((10066330 / 8388608 : ℚ)) / 2 ^ ((0 : ℤ) - 23) = ((10066330 : ℤ) : ℚ)
              from by norm_num]
        exact roundHalfEven_intCast _)
  rw [h]; norm_num

theorem roundF32_07_add_width :
    roundF32 (11744051 / 16777216 + 10066330 / 8388608) = 15938356 / 8388608 := by
  have h := roundF32_eq_of_binade (11744051 / 16777216 + 10066330 / 8388608) 0 15938356
    (by norm_num) (by norm_num) (by norm_num)
    (by rw [show ((11744051 / 16777216 + 10066330 / 8388608 : ℚ)) / 2 ^ ((0 : ℤ) - 23)
              = ((15938355 : ℤ) : ℚ) + 1 / 2 from by norm_num]
        exact roundHalfEven_tie_odd 15938355 (by norm_num))
  rw [h]; norm_num

theorem asteroidRadiusF32_07_19 :
    asteroidRadiusF32 32767 (roundF32 0.7) (roundF32 1.9) 32767 = 15938356 / 8388608 := by
  unfold asteroidRadiusF32
  rw [unitRandF32_max 32767 (by norm_num), roundF32_07, roundF32_19, roundF32_19_sub_07,
    one_mul, roundF32_width, roundF32_07_add_width]

/-- At `rand() = RAND_MAX` the radius is `inner + (outer - inner)` in `float`. -/
theorem asteroidRadiusF32_max (R : Nat) (hR : 0 < R) (inner outer : ℚ) :
    asteroidRadiusF32 R inner outer R = roundF32 (inner + roundF32 (outer - inner)) := by
  unfold asteroidRadiusF32
  rw [unitRandF32_max R hR, one_mul, roundF32_idem]

/-- C9 as stated fails in `float`.  With `RAND_MAX = 32767` and `rand()`
returning 32767 the placement angle is `2.0f * PI = 13176795 / 2097152`,
which is above `2π`, so it is not in `[0, 2π)`; with glibc's
`RAND_MAX = 2147483647` the same angle results already for
`rand() = RAND_MAX - 1`; and for the `float` radii `0.7f ≤ 1.9f` the
placement radius at `rand() = RAND_MAX` is one step above `1.9f`. -/
theorem asteroid_angle_radius_out_of_range :
    ¬ ((asteroidAngleF32 32767 32767 : ℝ) < 2 * Real.pi)
      ∧ ¬ ((asteroidAngleF32 2147483647 2147483646 : ℝ) < 2 * Real.pi)
      ∧ roundF32 0.7 ≤ roundF32 1.9
      ∧ ¬ (asteroidRadiusF32 32767 (roundF32 0.7) (roundF32 1.9) 32767 ≤ roundF32 1.9) := by
  refine ⟨?_, ?_, ?_, ?_⟩
  · rw [asteroidAngleF32_max 32767 (by norm_num)]
    exact not_lt.mpr two_pi_lt_float.le
  · rw [asteroidAngleF32_glibc]
    exact not_lt.mpr two_pi_lt_float.le
  · rw [roundF32_07, roundF32_19]; norm_num
  · rw [asteroidRadiusF32_07_19, roundF32_19]; norm_num

/-- C9, amended. In `float` arithmetic, for every `rand()` result `r` in
`[0, RAND_MAX]`: the placement angle is non-decreasing in `r` and lies in the
closed interval from 0 to `2.0f * PI = 13176795 / 2097152`, a value above
`2π` that is reached at `r = RAND_MAX`; the placement radius, for a `float`
`inner ≤ outer` (magnitudes up to `2 ^ 126`), is non-decreasing in `r` and
lies between `inner` and the radius computed for `r = RAND_MAX`, which is the
`float` sum of `inner` and the `float` difference `outer - inner`; for the
call of the frame loop that interval is `[9, 11]`. -/
theorem asteroid_angle_radius_range (R r : Nat) (hR : 0 < R) (hr : r ≤ R) (inner outer : ℚ) :
    (0 ≤ asteroidAngleF32 R r ∧ asteroidAngleF32 R r ≤ 13176795 / 2097152)
      ∧ asteroidAngleF32 R R = 13176795 / 2097152
      ∧ 2 * Real.pi < (((13176795 / 2097152 : ℚ)) : ℝ)
      ∧ (∀ s : Nat, r ≤ s → asteroidAngleF32 R r ≤ asteroidAngleF32 R s)
      ∧ (roundF32 inner = inner → |inner| ≤ 2 ^ 126 → |outer| ≤ 2 ^ 126 → inner ≤ outer →
          inner ≤ asteroidRadiusF32 R inner outer r
            ∧ asteroidRadiusF32 R inner outer r ≤ asteroidRadiusF32 R inner outer R
            ∧ ∀ s : Nat, r ≤ s →
                asteroidRadiusF32 R inner outer r ≤ asteroidRadiusF32 R inner outer s)
      ∧ asteroidRadiusF32 R inner outer R = roundF32 (inner + roundF32 (outer - inner))
      ∧ (9 ≤ asteroidRadiusF32 R 9 11 r ∧ asteroidRadiusF32 R 9 11 r ≤ 11) := by
  refine ⟨⟨?_, ?_⟩, asteroidAngleF32_max R hR, two_pi_lt_float,
    fun s hs => asteroidAngleF32_mono R hR hs, ?_, asteroidRadiusF32_max R hR inner outer,
    ?_, ?_⟩
  · exact le_of_eq_of_le (asteroidAngleF32_zero R).symm
      (asteroidAngleF32_mono R hR (Nat.zero_le r))
  · exact le_of_le_of_eq (asteroidAngleF32_mono R hR hr) (asteroidAngleF32_max R hR)
  · intro hin _ _ hio
    exact ⟨asteroidRadiusF32_ge R r hR hr inner outer hin hio,
      asteroidRadiusF32_mono R hR inner outer hio hr,
      fun s hs => asteroidRadiusF32_mono R hR inner outer hio hs⟩
  · exact asteroidRadiusF32_ge R r hR hr 9 11 roundF32_nine (by norm_num)
  · exact le_of_le_of_eq (asteroidRadiusF32_mono R hR 9 11 (by norm_num) hr)
      (asteroidRadiusF32_frame_max R hR)

/-- Witness of the amended C9: `RAND_MAX = 32767`, `rand() = 5`. -/
theorem asteroid_angle_radius_range_witness :
    (0 < 32767 ∧ 5 ≤ 32767)
      ∧ (0 ≤ asteroidAngleF32 32767 5 ∧ asteroidAngleF32 32767 5 ≤ 13176795 / 2097152) :=
  ⟨by decide, (asteroid_angle_radius_range 32767 5 (by decide) (by decide) 9 11).1⟩

end SolarSystem
